import Mathlib

/-!
Verification development for the AF_PACKET DAQ module
(`src/modules/daq_afpacket.c`).

The development shallowly embeds the pure and state-manipulating logic of the
module: ring layout arithmetic (`calculate_layout`), userspace ring descriptor
construction (`set_up_ring`), interface-string parsing and bridge pairing
(`afpacket_daq_init` / `create_bridge`), VLAN tag reconstruction, the
filter gate and slot release on the receive path (`afpacket_daq_msg_receive`),
transmission (`afpacket_transmit_packet`), verdict disposition
(`afpacket_daq_msg_finalize`) and the poll-driven wait loop
(`afpacket_wait_for_packet`).

Modelling conventions:
* C unsigned integers are `Nat`; where a `uint32_t` multiplication can wrap,
  the reduction modulo 2^32 is written explicitly.
* Memory regions (ring slots, packets, the device string) are `List Nat`
  (byte values); the C string is a byte list and `':'` is byte 58.
* Kernel/system interactions (socket calls, `poll`, the BPF evaluator) are
  oracles: their observable results are inputs to the embedded functions,
  exactly at the granularity the source consumes them.
* Pointer identity of ring slots and instances is modelled with stable
  numeric ids; a NULL pointer dereference is a distinguished outcome.
* 16-bit stores of `htons` values are laid out big-endian, matching the
  little-endian hosts the module targets.
-/

/- ===== DAQ return codes and kernel constants (daq_common.h, if_packet.h) ===== -/

def DAQ_SUCCESS : Int := 0

def DAQ_ERROR : Int := -1

def DAQ_ERROR_NOMEM : Int := -2

def DAQ_ERROR_NODEV : Int := -3

def DAQ_ERROR_AGAIN : Int := -4

/-- TP_STATUS_KERNEL = 0: RX slot owned by the kernel. -/
def TP_STATUS_KERNEL : Nat := 0

/-- TP_STATUS_USER = 1: RX slot handed to userspace. -/
def TP_STATUS_USER : Nat := 1

/-- TP_STATUS_AVAILABLE = 0: TX slot free for userspace use. -/
def TP_STATUS_AVAILABLE : Nat := 0

/-- TP_STATUS_SEND_REQUEST = 1: TX slot queued for transmission. -/
def TP_STATUS_SEND_REQUEST : Nat := 1

/-- TP_STATUS_VLAN_VALID = 1 << 4. -/
def TP_STATUS_VLAN_VALID : Nat := 16

/-- TP_STATUS_VLAN_TPID_VALID = 1 << 6. -/
def TP_STATUS_VLAN_TPID_VALID : Nat := 64

/-- enum tpacket_versions: TPACKET_V1 = 0, TPACKET_V2 = 1, TPACKET_V3 = 2. -/
def TPACKET_V2 : Nat := 1

/-- ETH_P_8021Q = 0x8100, the default TPID inserted on reconstruction. -/
def ETH_P_8021Q : Nat := 33024

/-- VLAN_TAG_LEN = 4 (daq_afpacket.c). -/
def VLAN_TAG_LEN : Nat := 4

/-- vlan_offset = 2 * ETH_ALEN = 12 (daq_afpacket.c). -/
def vlan_offset : Nat := 12

/-- ETH_HLEN = 14. -/
def ETH_HLEN : Nat := 14

/-- IFNAMSIZ = 16, the OS interface-name limit. -/
def IFNAMSIZ : Nat := 16

/-- AF_PACKET_MAX_INTERFACES = 32 (daq_afpacket.c). -/
def AF_PACKET_MAX_INTERFACES : Nat := 32

/-- AF_PACKET_DEFAULT_BUFFER_SIZE = 128 (megabytes, daq_afpacket.c). -/
def AF_PACKET_DEFAULT_BUFFER_SIZE : Nat := 128

/-- MAX_DAQ_VERDICT = 7; verdicts 0..6 are
pass, block, replace, whitelist, blacklist, ignore, retry. -/
def MAX_DAQ_VERDICT : Nat := 7

def DAQ_VERDICT_PASS : Nat := 0

def DAQ_VERDICT_BLOCK : Nat := 1

def DAQ_VERDICT_REPLACE : Nat := 2

def DAQ_VERDICT_WHITELIST : Nat := 3

def DAQ_VERDICT_BLACKLIST : Nat := 4

def DAQ_VERDICT_IGNORE : Nat := 5

def DAQ_VERDICT_RETRY : Nat := 6

/-- Decidable equality on `Except` results, so concrete runs of the
embedded fallible functions can be checked by `decide`. -/
instance decEqExcept {α β : Type} [DecidableEq α] [DecidableEq β] :
    DecidableEq (Except α β) := fun x y =>
  match x, y with
  | .error a, .error b =>
    if h : a = b then isTrue (by rw [h]) else isFalse (by simp [h])
  | .ok a, .ok b =>
    if h : a = b then isTrue (by rw [h]) else isFalse (by simp [h])
  | .error _, .ok _ => isFalse (by simp)
  | .ok _, .error _ => isFalse (by simp)

/- ===== Byte-range writes (model of memcpy/memmove targets) ===== -/

/-- Write the byte list `vs` into `l` starting at offset `off`
(consecutive `List.set` stores, as a C byte copy loop performs). -/
def writeBytes : List Nat → Nat → List Nat → List Nat
  | l, _, [] => l
  | l, off, v :: vs => writeBytes (l.set off v) (off + 1) vs

theorem writeBytes_length (vs : List Nat) : ∀ (l : List Nat) (off : Nat),
    (writeBytes l off vs).length = l.length := by
  induction vs with
  | nil => intro l off; rfl
  | cons v vs ih =>
    intro l off
    simp [writeBytes, ih]

theorem writeBytes_getElem?_lt (vs : List Nat) : ∀ (l : List Nat) (off i : Nat),
    i < off → (writeBytes l off vs)[i]? = l[i]? := by
  induction vs with
  | nil => intro l off i _; rfl
  | cons v vs ih =>
    intro l off i hi
    rw [writeBytes, ih (l.set off v) (off + 1) i (Nat.lt_succ_of_lt hi)]
    exact List.getElem?_set_ne (Nat.ne_of_gt hi)

theorem writeBytes_getElem?_ge (vs : List Nat) : ∀ (l : List Nat) (off i : Nat),
    off + vs.length ≤ i → (writeBytes l off vs)[i]? = l[i]? := by
  induction vs with
  | nil => intro l off i _; rfl
  | cons v vs ih =>
    intro l off i hi
    simp only [List.length_cons] at hi
    rw [writeBytes, ih (l.set off v) (off + 1) i (by omega)]
    exact List.getElem?_set_ne (by omega)

theorem writeBytes_getElem?_in (vs : List Nat) : ∀ (l : List Nat) (off j : Nat),
    j < vs.length → off + vs.length ≤ l.length →
    (writeBytes l off vs)[off + j]? = vs[j]? := by
  induction vs with
  | nil => intro l off j hj; simp at hj
  | cons v vs ih =>
    intro l off j hj hlen
    simp only [List.length_cons] at hj hlen
    match j with
    | 0 =>
      rw [writeBytes, writeBytes_getElem?_lt vs (l.set off v) (off + 1) (off + 0) (by omega)]
      simp only [Nat.add_zero]
      rw [List.getElem?_set_self (by omega)]
      simp
    | Nat.succ j' =>
      rw [writeBytes]
      have h1 : off + (j' + 1) = (off + 1) + j' := by omega
      rw [h1, ih (l.set off v) (off + 1) j' (by omega) (by simp; omega)]
      simp

/- ===== VLAN tag reconstruction (daq_afpacket.c lines 1146-1172) ===== -/

/-- The guard of the VLAN reconstruction block: protocol version is
TPACKET_V2, the kernel reported a stripped VLAN (non-zero `tp_vlan_tci` or the
TP_STATUS_VLAN_VALID status bit), and the capture covers both Ethernet
addresses. -/
def vlanCond (tp_version tp_status tp_vlan_tci tp_snaplen : Nat) : Bool :=
  tp_version == TPACKET_V2 &&
    (tp_vlan_tci != 0 || (tp_status &&& TP_STATUS_VLAN_VALID) != 0) &&
    vlan_offset ≤ tp_snaplen

/-- The TPID stored into the reconstructed tag: the kernel-provided
`tp_vlan_tpid` when it is non-zero and TP_STATUS_VLAN_TPID_VALID is set,
else ETH_P_8021Q. -/
def vlanTagTpid (tp_status tp_vlan_tpid : Nat) : Nat :=
  if tp_vlan_tpid ≠ 0 && (tp_status &&& TP_STATUS_VLAN_TPID_VALID) != 0 then
    tp_vlan_tpid
  else ETH_P_8021Q

/-- In-place VLAN surgery on the raw slot bytes: `data -= VLAN_TAG_LEN`,
`memmove(data, data + VLAN_TAG_LEN, vlan_offset)` (the two MAC addresses move
4 bytes earlier into the PACKET_RESERVE hole), then the 4-byte `{tpid, tci}`
tag is stored at `data + vlan_offset` with `htons` (big-endian) layout. -/
def vlanApply (raw : List Nat) (tp_mac tp_status tp_vlan_tci tp_vlan_tpid : Nat) : List Nat :=
  let d := tp_mac - VLAN_TAG_LEN
  let moved := writeBytes raw d ((raw.drop tp_mac).take vlan_offset)
  let tpid := vlanTagTpid tp_status tp_vlan_tpid
  writeBytes moved (d + vlan_offset)
    [tpid / 256 % 256, tpid % 256, tp_vlan_tci / 256 % 256, tp_vlan_tci % 256]

/-- Frame materialisation step of `afpacket_daq_msg_receive`: returns the
data offset into the raw slot, the (possibly rewritten) slot bytes, and the
delivered capture and wire lengths. -/
def vlanReconstruct (tp_version : Nat) (raw : List Nat)
    (tp_mac tp_snaplen tp_len tp_status tp_vlan_tci tp_vlan_tpid : Nat) :
    Nat × List Nat × Nat × Nat :=
  if vlanCond tp_version tp_status tp_vlan_tci tp_snaplen then
    (tp_mac - VLAN_TAG_LEN,
     vlanApply raw tp_mac tp_status tp_vlan_tci tp_vlan_tpid,
     tp_snaplen + VLAN_TAG_LEN, tp_len + VLAN_TAG_LEN)
  else
    (tp_mac, raw, tp_snaplen, tp_len)

/- ===== Ring layout negotiation (daq_afpacket.c lines 364-399) ===== -/

/-- TPACKET_ALIGN(x) = (((x) + TPACKET_ALIGNMENT - 1) & ~(TPACKET_ALIGNMENT - 1))
with TPACKET_ALIGNMENT = 16: round up to a multiple of 16. -/
def TPACKET_ALIGN (x : Nat) : Nat := (x + 15) / 16 * 16

/-- sizeof(struct sockaddr_ll) = 20 on the targeted ABI. -/
def sizeof_sockaddr_ll : Nat := 20

/-- The `while (tp_block_size < tp_frame_size) tp_block_size <<= 1;` loop.
Structural fuel replaces the C loop; `growBlockSize` supplies fuel that is
always sufficient for a positive starting block size. -/
def growBlockSizeAux : Nat → Nat → Nat → Nat
  | 0, bs, _ => bs
  | fuel + 1, bs, fs => if bs < fs then growBlockSizeAux fuel (2 * bs) fs else bs

def growBlockSize (bs fs : Nat) : Nat := growBlockSizeAux fs bs fs

/-- struct tpacket_req. -/
structure TpacketReq where
  tp_block_size : Nat
  tp_block_nr : Nat
  tp_frame_size : Nat
  tp_frame_nr : Nat
deriving Repr, DecidableEq

/-- The frame size computed by `calculate_layout` from the snap length and
the TPACKET_V2 header length. -/
def layoutFrameSize (snaplen tp_hdrlen : Nat) : Nat :=
  let tp_hdrlen_sll := TPACKET_ALIGN tp_hdrlen + sizeof_sockaddr_ll
  let netoff := TPACKET_ALIGN (tp_hdrlen_sll + ETH_HLEN) + VLAN_TAG_LEN
  TPACKET_ALIGN (netoff - ETH_HLEN + snaplen)

/-- calculate_layout: compute the tpacket_req the module submits to the
kernel.  `size` is the per-ring byte budget (`afpc->size`), `page_size` the
value of getpagesize(), and `order` the block-size order being attempted.
Fails exactly when `frames_per_block` computes to zero. -/
def calculate_layout (size snaplen page_size tp_hdrlen : Nat) (order : Nat) :
    Except String TpacketReq :=
  let frame_size := layoutFrameSize snaplen tp_hdrlen
  let block_size := growBlockSize (page_size <<< order) frame_size
  let frames_per_block := block_size / frame_size
  if frames_per_block = 0 then
    .error "Invalid frames per block"
  else
    let frame_nr := size / frame_size
    let block_nr := frame_nr / frames_per_block
    .ok ⟨block_size, block_nr, frame_size, block_nr * frames_per_block⟩

theorem growBlockSizeAux_spec (fuel : Nat) : ∀ (bs fs : Nat), 0 < bs →
    fs ≤ 2 ^ fuel * bs →
    ∃ k, growBlockSizeAux fuel bs fs = 2 ^ k * bs ∧
      fs ≤ 2 ^ k * bs ∧ (k = 0 ∨ ¬ fs ≤ 2 ^ (k - 1) * bs) := by
  induction fuel with
  | zero =>
    intro bs fs hbs hfs
    exact ⟨0, by simp [growBlockSizeAux], by simpa using hfs, Or.inl rfl⟩
  | succ fuel ih =>
    intro bs fs hbs hfs
    rw [growBlockSizeAux]
    by_cases h : bs < fs
    · simp only [h, if_true]
      have hfs' : fs ≤ 2 ^ fuel * (2 * bs) := by
        calc fs ≤ 2 ^ (fuel + 1) * bs := hfs
        _ = 2 ^ fuel * (2 * bs) := by ring
      obtain ⟨k, hk1, hk2, hk3⟩ := ih (2 * bs) fs (by omega) hfs'
      refine ⟨k + 1, ?_, ?_, Or.inr ?_⟩
      · rw [hk1]; ring
      · calc fs ≤ 2 ^ k * (2 * bs) := hk2
        _ = 2 ^ (k + 1) * bs := by ring
      · intro hcon
        rcases hk3 with h0 | hne
        · subst h0
          simp only [pow_zero, one_mul] at hk2 ⊢
          simp only [Nat.add_sub_cancel, pow_zero, one_mul] at hcon
          omega
        · apply hne
          have hk0 : 2 ^ (k + 1 - 1) * bs ≤ 2 ^ (k - 1) * (2 * bs) := by
            cases k with
            | zero => simp; omega
            | succ k' =>
              apply le_of_eq
              simp only [Nat.add_sub_cancel, Nat.succ_sub_one]
              ring
          exact le_trans hcon hk0
    · simp only [h, if_false]
      exact ⟨0, by simp, by simpa using Nat.le_of_not_lt h, Or.inl rfl⟩

/-- For a positive starting block size the fuel `fs` always suffices:
doubling `bs ≥ 1` for `fs` steps reaches at least `fs`. -/
theorem growBlockSize_spec (bs fs : Nat) (hbs : 0 < bs) :
    ∃ k, growBlockSize bs fs = 2 ^ k * bs ∧
      fs ≤ 2 ^ k * bs ∧ (k = 0 ∨ ¬ fs ≤ 2 ^ (k - 1) * bs) := by
  refine growBlockSizeAux_spec fs bs fs hbs ?_
  calc fs ≤ 2 ^ fs := Nat.le_of_lt (Nat.lt_two_pow fs)
  _ ≤ 2 ^ fs * bs := Nat.le_mul_of_pos_right _ hbs

/- ===== Userspace ring descriptor build (daq_afpacket.c lines 177-208) ===== -/

/-- The slot addresses produced by the nested block/frame loop of
`set_up_ring`: for each block, for each frame while `idx < tp_frame_nr`,
the address `base + block * tp_block_size + frame * tp_frame_size`. -/
def ringAddresses (base : Nat) (layout : TpacketReq) : List Nat :=
  ((List.range layout.tp_block_nr).flatMap (fun block =>
    (List.range (layout.tp_block_size / layout.tp_frame_size)).map (fun frame =>
      base + block * layout.tp_block_size + frame * layout.tp_frame_size))).take
    layout.tp_frame_nr

/-- The `next` links of the ring entries: `entries[idx].next = idx + 1`
during the loop, then the last entry is relinked to entry 0. -/
def ringNexts (n : Nat) : List Nat :=
  ((List.range n).map (fun i => i + 1)).set (n - 1) 0

/-- Userspace ring state after `set_up_ring`: slot addresses, next links
and the cursor initialised to the first entry. -/
structure RingUser where
  addresses : List Nat
  nexts : List Nat
  cursor : Nat
deriving Repr, DecidableEq

def set_up_ring (base : Nat) (layout : TpacketReq) : RingUser :=
  ⟨ringAddresses base layout, ringNexts layout.tp_frame_nr, 0⟩

theorem flatMap_range_const_length {α : Type} (F : Nat → List α) (w : Nat)
    (hF : ∀ b, (F b).length = w) : ∀ (m : Nat),
    ((List.range m).flatMap F).length = m * w := by
  intro m
  induction m with
  | zero => simp
  | succ m ihm =>
    rw [List.range_succ, List.flatMap_append]
    simp only [List.length_append, ihm, List.flatMap_cons, List.flatMap_nil,
      List.append_nil, hF]
    ring

theorem flatMap_range_const_length_getElem? {α : Type} (F : Nat → List α) (w : Nat)
    (hF : ∀ b, (F b).length = w) (nb : Nat) : ∀ (b f : Nat), b < nb → f < w →
    ((List.range nb).flatMap F)[b * w + f]? = (F b)[f]? := by
  induction nb with
  | zero => intro b f hb _; omega
  | succ nb ih =>
    intro b f hb hf
    rw [List.range_succ, List.flatMap_append, List.getElem?_append,
      flatMap_range_const_length F w hF nb]
    rcases Nat.lt_or_ge b nb with hlt | hge
    · have hidx : b * w + f < nb * w := by
        calc b * w + f < b * w + w := by omega
        _ = (b + 1) * w := by ring
        _ ≤ nb * w := Nat.mul_le_mul_right _ (by omega)
      rw [if_pos hidx]
      exact ih b f hlt hf
    · have hb' : b = nb := by omega
      subst hb'
      rw [if_neg (by omega)]
      simp only [List.flatMap_cons, List.flatMap_nil, List.append_nil]
      congr 1
      omega

/- ===== Interface-string parsing and bridging (daq_afpacket.c 582-602, 633-822) ===== -/

/-- Byte value of the token separator `':'`. -/
def colonByte : Nat := 58

/-- An instance as relevant to parsing: its name (the token bytes), a stable
creation id standing for the object identity (and the ifindex resolved for
it), and the bridge peer reference (`peer`, a creation id). -/
structure InstP where
  name : List Nat
  idx : Nat
  peer : Option Nat
deriving Repr, DecidableEq

/-- Parser state: `insts` is `afpc->instances` (newest first, as instances
are prepended), `intf_count` is `afpc->intf_count`, `num_intfs` the local
pairing counter, `next_id` the next creation id. -/
structure PState where
  insts : List InstP
  intf_count : Nat
  num_intfs : Nat
  next_id : Nat
deriving Repr, DecidableEq

/-- Host-visible failures of `afpacket_daq_init`; the module reports
all of them as DAQ_ERROR with distinct messages, and the design taxonomy
classifies every one of these as an invalid-specification error. -/
inductive InitErr where
  | invalidSpec     -- "Invalid interface specification"
  | tooLong         -- "Interface name too long!"
  | tooMany         -- "Using more than 32 interfaces is not supported!"
  | nodevBridge     -- "Couldn't create the bridge between ..."
deriving Repr, DecidableEq

/-- The scan of `create_bridge`: iterate `afpc->instances` head to tail; an
instance whose name equals `device_name1` (re)binds `peer1`, else one whose
name equals `device_name2` (re)binds `peer2`.  Returns the positions of the
final bindings. -/
def findBridgePeersAux (n1 n2 : List Nat) :
    List InstP → Nat → Option Nat × Option Nat → Option Nat × Option Nat
  | [], _, acc => acc
  | i :: rest, pos, acc =>
    findBridgePeersAux n1 n2 rest (pos + 1)
      (if i.name = n1 then (some pos, acc.2)
       else if i.name = n2 then (acc.1, some pos)
       else acc)

def findBridgePeers (insts : List InstP) (n1 n2 : List Nat) : Option Nat × Option Nat :=
  findBridgePeersAux n1 n2 insts 0 (none, none)

/-- create_bridge: on success, the two found instances point at each other
through `peer`; if either lookup fails the result is DAQ_ERROR_NODEV. -/
def create_bridge (insts : List InstP) (n1 n2 : List Nat) : Option (List InstP) :=
  match findBridgePeers insts n1 n2 with
  | (some p1, some p2) =>
    match insts[p1]?, insts[p2]? with
    | some i1, some i2 =>
      some ((insts.set p1 { i1 with peer := some i2.idx }).set p2
        { i2 with peer := some i1.idx })
    | _, _ => none
  | _ => none

/-- Handling of one non-empty token inside the parse loop of
`afpacket_daq_init`: bump and cap-check `intf_count`, create the
instance (socket and ifindex resolution modelled as succeeding), prepend it,
and in non-passive modes pair every second instance via `create_bridge`.
The returned Bool is the `break` taken when `num_intfs > 2`. -/
def handleToken (passive : Bool) (tok : List Nat) (st : PState) :
    Except InitErr (PState × Bool) :=
  let count := st.intf_count + 1
  if AF_PACKET_MAX_INTERFACES ≤ count then .error .tooMany
  else
    let inst : InstP := ⟨tok, st.next_id, none⟩
    let insts := inst :: st.insts
    let n := st.num_intfs + 1
    if passive then .ok (⟨insts, count, n, st.next_id + 1⟩, false)
    else if n = 2 then
      match st.insts.head? with
      | some i1 =>
        match create_bridge insts i1.name inst.name with
        | some insts2 => .ok (⟨insts2, count, 0, st.next_id + 1⟩, false)
        | none => .error .nodevBridge
      | none => .error .nodevBridge   -- unreachable: num_intfs = 1 means an instance exists
    else if 2 < n then .ok (⟨insts, count, n, st.next_id + 1⟩, true)
    else .ok (⟨insts, count, n, st.next_id + 1⟩, false)

/-- The `while (*dev != '\0')` token loop.  `strcspn` is `takeWhile` up to a
colon; an empty token advances one byte (over the separator).  Structural
fuel stands for the strictly decreasing residual string length; callers pass
`dev.length`, which is always sufficient. -/
def parseLoopAux (passive : Bool) : Nat → List Nat → PState → Except InitErr PState
  | _, [], st => .ok st
  | 0, _ :: _, st => .ok st   -- never reached with fuel ≥ length
  | fuel + 1, c :: cs, st =>
    let tok := (c :: cs).takeWhile (fun b => b ≠ colonByte)
    if IFNAMSIZ ≤ tok.length then .error .tooLong
    else if tok.length = 0 then parseLoopAux passive fuel cs st
    else
      match handleToken passive tok st with
      | .error e => .error e
      | .ok (st2, stop) =>
        if stop then .ok st2
        else parseLoopAux passive fuel ((c :: cs).drop tok.length) st2

/-- Does the byte list contain two adjacent colons (`strstr(dev, "::")`)? -/
def hasDoubleColon : List Nat → Bool
  | b1 :: b2 :: rest =>
    (b1 = colonByte && b2 = colonByte) || hasDoubleColon (b2 :: rest)
  | _ => false

/-- Device-string parsing of `afpacket_daq_init`: the up-front
rejection of an empty head token, an empty tail token and (in passive mode)
an empty interior token; then the token loop; then the rejection of an empty
instance list or (in non-passive modes) a dangling unpaired interface. -/
def parseDevice (passive : Bool) (dev : List Nat) : Except InitErr PState :=
  if dev.head? = some colonByte ∨
      (dev.length > 0 ∧ dev.getLast? = some colonByte) ∨
      (passive ∧ hasDoubleColon dev) then
    .error .invalidSpec
  else
    match parseLoopAux passive dev.length dev ⟨[], 0, 0, 0⟩ with
    | .error e => .error e
    | .ok st =>
      if st.insts = [] ∨ (¬passive ∧ st.num_intfs ≠ 0) then .error .invalidSpec
      else .ok st

/-- A buffer-size request string: either the literal "max" or a decimal
megabyte count (the result of `strtoul`). -/
inductive SizeStr where
  | maxim
  | mb (n : Nat)
deriving Repr, DecidableEq

/-- Resolution of the buffer size in megabytes: the `buffer_size_mb`
variable if present, else the AF_PACKET_BUFFER_SIZE environment variable;
the literal "max" (or nothing at all) means the 128 MB default. -/
def resolveSizeMB (bufOpt envOpt : Option SizeStr) : Nat :=
  match (match bufOpt with | some s => some s | none => envOpt) with
  | some .maxim => AF_PACKET_DEFAULT_BUFFER_SIZE
  | some (.mb n) => n
  | none => AF_PACKET_DEFAULT_BUFFER_SIZE

/-- `num_rings`: one ring per unbridged instance, two per bridged instance
(the loop at daq_afpacket.c lines 801-803). -/
def numRings (insts : List InstP) : Nat :=
  insts.foldl (fun acc i => acc + if i.peer.isSome then 2 else 1) 0

/-- The context produced by a successful initialize, as far as parsing and
ring sizing are concerned: the instance list, `intf_count`, and the
per-ring byte budget `afpc->size`. -/
structure AFPContext where
  insts : List InstP
  intf_count : Nat
  size : Nat
deriving Repr, DecidableEq

/-- The initialize entry point (daq_afpacket.c lines 633-822), parsing and
sizing part: parse the device string, resolve the megabyte budget, convert
to bytes in 32-bit arithmetic, divide by the ring count. -/
def afpacket_daq_init (passive : Bool) (dev : List Nat)
    (bufOpt envOpt : Option SizeStr) : Except InitErr AFPContext :=
  match parseDevice passive dev with
  | .error e => .error e
  | .ok st =>
    .ok ⟨st.insts, st.intf_count,
      resolveSizeMB bufOpt envOpt * 1024 * 1024 % 4294967296 / numRings st.insts⟩

/- ===== Transmission, receive path and verdict disposition ===== -/

/-- DAQ_PKTHDR_UNKNOWN = -1. -/
def DAQ_PKTHDR_UNKNOWN : Int := -1

/-- A userspace TX ring: per-slot status words, the bytes and length last
copied into each slot, and the cursor naming the next slot to fill. -/
structure TxRingM where
  statuses : List Nat
  slotData : List (List Nat)
  slotLen : List Nat
  cursor : Nat
deriving Repr, DecidableEq

/-- An instance as relevant to the receive/transmit paths: ifindex, RX
frame size, TPACKET version, optional TX ring (present iff bridged with a
started TX ring), peer reference (position in the context's instance list),
and the log of frames pushed through the `sendto` fallback. -/
structure InstM where
  index : Int
  frame_size : Nat
  tp_version : Nat
  txRing : Option TxRingM
  peer : Option Nat
  sendtoLog : List (List Nat)
deriving Repr, DecidableEq

/-- afpacket_transmit_packet (daq_afpacket.c lines 870-903): a null egress
is a successful no-op; with a TX ring, a cursor slot that is not
TP_STATUS_AVAILABLE yields DAQ_ERROR_AGAIN, otherwise the frame bytes are
copied into the slot, the length and TP_STATUS_SEND_REQUEST status are
written and the cursor advances; without a TX ring the frame goes out
through `sendto`.  The kernel wakeup `send` and `sendto` calls are modelled
as succeeding. -/
def afpacket_transmit_packet (insts : List InstM) (egress : Option Nat)
    (packet_data : List Nat) (len : Nat) : Int × List InstM :=
  match egress with
  | none => (DAQ_SUCCESS, insts)
  | some e =>
    match insts[e]? with
    | none => (DAQ_SUCCESS, insts)
    | some inst =>
      match inst.txRing with
      | some tx =>
        if tx.statuses.getD tx.cursor 0 ≠ TP_STATUS_AVAILABLE then
          (DAQ_ERROR_AGAIN, insts)
        else
          let tx2 : TxRingM :=
            ⟨tx.statuses.set tx.cursor TP_STATUS_SEND_REQUEST,
             tx.slotData.set tx.cursor (packet_data.take len),
             tx.slotLen.set tx.cursor len,
             (tx.cursor + 1) % tx.statuses.length⟩
          (DAQ_SUCCESS, insts.set e { inst with txRing := some tx2 })
      | none =>
        (DAQ_SUCCESS, insts.set e
          { inst with sendtoLog := inst.sendtoLog ++ [packet_data.take len] })

/-- DAQ_PktHdr_t as filled in by msg_receive. -/
structure PktHdrM where
  ts_sec : Nat
  ts_usec : Nat
  caplen : Nat
  pktlen : Nat
  ingress_index : Int
  egress_index : Int
deriving Repr, DecidableEq

/-- The distinct DPE messages the receive path can leave in the context's
error buffer. -/
inductive ErrKind where
  | corruptFrame
  | hangUp
  | pollCondition
  | pollInvalid
deriving Repr, DecidableEq

/-- The capture context as relevant to msg_receive / msg_finalize:
instances, the global map from RX slot id to its status byte, counters, the
error buffer, the break flag, whether a filter program is installed, and the
current-message scratch state (`curr_packet`): the slot id its `entry`
points at (`none` models the NULL pointer left by calloc before the first
delivery), the data bytes and the stored length, plus which instance the
current packet came from. -/
structure RecvCtx where
  insts : List InstM
  rxStatus : List Nat
  packets_filtered : Nat
  packets_injected : Nat
  verdicts : List Nat
  errbuf : Option ErrKind
  break_loop : Bool
  fcodePresent : Bool
  curr_instance : Nat
  curr_entry : Option Nat
  curr_pkt_instance : Nat
  curr_data : List Nat
  curr_length : Nat
deriving Repr, DecidableEq

/-- afpacket_free_packet (daq_afpacket.c lines 1108-1111): write
TP_STATUS_KERNEL into the status word of the slot that
`afpc->curr_packet.entry` points at.  When that pointer is still NULL the C
code dereferences NULL; the model returns `none`. -/
def afpacket_free_packet (ctx : RecvCtx) : Option RecvCtx :=
  match ctx.curr_entry with
  | some en => some { ctx with rxStatus := ctx.rxStatus.set en TP_STATUS_KERNEL }
  | none => none

/-- A claimed RX ring slot as msg_receive reads it: the slot id (object
identity of the entry) plus the tpacket2_hdr fields and the raw slot
bytes. -/
structure EntryM where
  id : Nat
  tp_status : Nat
  tp_len : Nat
  tp_mac : Nat
  tp_snaplen : Nat
  tp_sec : Nat
  tp_nsec : Nat
  tp_vlan_tci : Nat
  tp_vlan_tpid : Nat
  raw : List Nat
deriving Repr, DecidableEq

/-- Outcome of one iteration of the msg_receive loop body on a claimed
slot: a fatal error return, a delivered message, a filter miss (loop
continues), or the undefined behaviour of freeing through a NULL
`curr_packet.entry`. -/
inductive RecvStepResult where
  | fatal (ctx : RecvCtx)
  | delivered (ctx : RecvCtx) (hdr : PktHdrM) (data : List Nat)
  | filtered (ctx : RecvCtx)
  | nullDeref
deriving Repr, DecidableEq

/-- The body of the msg_receive loop for a slot claimed by
afpacket_find_packet (daq_afpacket.c lines 1134-1206): read the header
fields, bounds-check `tp_mac + tp_snaplen` against the ring frame size
(fatal on violation, with nothing released), reconstruct the VLAN tag,
apply the filter gate (`filterResult` is the oracle value of
`sfbpf_filter`); on a filter miss count it, forward the data to the peer,
and dispose of `afpc->curr_packet`; otherwise fill the packet descriptor
and header and deliver. -/
def recvBody (ctx : RecvCtx) (e : EntryM) (filterResult : Nat) : RecvStepResult :=
  match ctx.insts[ctx.curr_instance]? with
  | none => .fatal ctx
  | some inst =>
    if inst.frame_size < e.tp_mac + e.tp_snaplen then
      .fatal { ctx with errbuf := some .corruptFrame }
    else
      let r := vlanReconstruct inst.tp_version e.raw e.tp_mac e.tp_snaplen e.tp_len
        e.tp_status e.tp_vlan_tci e.tp_vlan_tpid
      let dataOff := r.1
      let raw2 := r.2.1
      let caplen := r.2.2.1
      let pktlen := r.2.2.2
      if ctx.fcodePresent && filterResult == 0 then
        let ctx1 := { ctx with packets_filtered := ctx.packets_filtered + 1 }
        let tr := afpacket_transmit_packet ctx1.insts inst.peer (raw2.drop dataOff) caplen
        let ctx2 := { ctx1 with insts := tr.2 }
        match afpacket_free_packet ctx2 with
        | some ctx3 => .filtered ctx3
        | none => .nullDeref
      else
        let egress : Int :=
          match inst.peer with
          | some p => match ctx.insts[p]? with
            | some pinst => pinst.index
            | none => DAQ_PKTHDR_UNKNOWN
          | none => DAQ_PKTHDR_UNKNOWN
        .delivered
          { ctx with curr_entry := some e.id, curr_pkt_instance := ctx.curr_instance,
                     curr_data := raw2.drop dataOff, curr_length := caplen }
          ⟨e.tp_sec, e.tp_nsec / 1000, caplen, pktlen, inst.index, egress⟩
          (raw2.drop dataOff)

/-- verdict_translation_table (daq_afpacket.c lines 1212-1220): pass,
replace, whitelist and ignore translate to pass; block, blacklist and retry
translate to block. -/
def verdict_translation_table : List Nat :=
  [DAQ_VERDICT_PASS, DAQ_VERDICT_BLOCK, DAQ_VERDICT_PASS, DAQ_VERDICT_PASS,
   DAQ_VERDICT_BLOCK, DAQ_VERDICT_PASS, DAQ_VERDICT_BLOCK]

/-- afpacket_daq_msg_finalize (daq_afpacket.c lines 1222-1241).  `sameMsg`
and `sameDesc` model the pointer identity tests `msg == &afpc->curr_msg`
and `msg->msg == &afpc->curr_packet`; on mismatch the call returns
DAQ_ERROR having changed nothing.  Otherwise the verdict is sanitized, its
counter bumped, pass-translated verdicts are forwarded to the ingress
instance's peer (the transmit result is discarded), the current slot is
released to the kernel and the call returns DAQ_SUCCESS. -/
def afpacket_daq_msg_finalize (ctx : RecvCtx) (sameMsg sameDesc : Bool)
    (verdict : Nat) : Option (Int × RecvCtx) :=
  if !(sameMsg && sameDesc) then some (DAQ_ERROR, ctx)
  else
    let v := if MAX_DAQ_VERDICT ≤ verdict then DAQ_VERDICT_PASS else verdict
    let ctx1 := { ctx with verdicts := ctx.verdicts.set v (ctx.verdicts.getD v 0 + 1) }
    let act := verdict_translation_table.getD v DAQ_VERDICT_BLOCK
    let ctx2 :=
      if act = DAQ_VERDICT_PASS then
        let peer := match ctx1.insts[ctx1.curr_pkt_instance]? with
          | some i => i.peer
          | none => none
        { ctx1 with insts :=
            (afpacket_transmit_packet ctx1.insts peer ctx1.curr_data ctx1.curr_length).2 }
      else ctx1
    match afpacket_free_packet ctx2 with
    | some ctx3 => some (DAQ_SUCCESS, ctx3)
    | none => none

/-- Observable outcomes of one `poll` call inside
afpacket_wait_for_packet: a negative return with EINTR, a negative return
with any other errno, a zero (timeout) return, or a positive return whose
revents either do or do not carry POLLHUP/POLLRDHUP/POLLERR/POLLNVAL. -/
inductive PollOutcome where
  | negEintr
  | negOther
  | timeout
  | ready (bad : Bool)
deriving Repr, DecidableEq

/-- afpacket_wait_for_packet (daq_afpacket.c lines 1061-1106) as a function
of the poll outcome: EINTR is the retryable DAQ_ERROR_AGAIN, other failures
and bad revents are DAQ_ERROR, timeout is 0, readiness is 1. -/
def afpacket_wait_for_packet : PollOutcome → Int
  | .negEintr => DAQ_ERROR_AGAIN
  | .negOther => DAQ_ERROR
  | .timeout => 0
  | .ready true => DAQ_ERROR
  | .ready false => 1

/-- The inner `while ((ret = afpacket_wait_for_packet(afpc)) ==
DAQ_ERROR_AGAIN);` loop of msg_receive, consuming successive poll
outcomes; `none` when the supplied outcome trace ends while the loop is
still retrying. -/
def innerWait : List PollOutcome → Option Int
  | [] => none
  | p :: ps =>
    if afpacket_wait_for_packet p = DAQ_ERROR_AGAIN then innerWait ps
    else some (afpacket_wait_for_packet p)

/-- One iteration's environment input for the msg_receive outer loop:
either afpacket_find_packet found nothing (with the poll outcomes then
observed), or it claimed a slot whose filter evaluation is given. -/
inductive RecvEvent where
  | noPacket (polls : List PollOutcome)
  | packet (e : EntryM) (filterResult : Nat)
deriving Repr, DecidableEq

/-- Result of msg_receive over an environment trace: a return (code,
delivered message, final context), or the trace ran out mid-loop, or the
run hit the NULL-entry free. -/
inductive RecvLoopRes where
  | out (ret : Int) (msg : Option PktHdrM) (ctx : RecvCtx)
  | stuck
  | undefined
deriving Repr, DecidableEq

/-- afpacket_daq_msg_receive (daq_afpacket.c lines 1113-1210): `*msgptr`
starts NULL; each iteration either claims a slot and runs the body, or
polls (retrying EINTR inside `afpacket_wait_for_packet`'s caller loop) and
returns non-positive wait results directly; `continue` re-enters the loop
only while `break_loop` is clear, and falling out of the loop returns
DAQ_SUCCESS with no message. -/
def afpacket_daq_msg_receive : RecvCtx → List RecvEvent → RecvLoopRes
  | _, [] => .stuck
  | ctx, ev :: rest =>
    match ev with
    | .noPacket polls =>
      match innerWait polls with
      | none => .stuck
      | some r =>
        if r ≤ 0 then .out r none ctx
        else if ctx.break_loop then .out DAQ_SUCCESS none ctx
        else afpacket_daq_msg_receive ctx rest
    | .packet e filterResult =>
      match recvBody ctx e filterResult with
      | .fatal ctx2 => .out DAQ_ERROR none ctx2
      | .delivered ctx2 hdr _ => .out DAQ_SUCCESS (some hdr) ctx2
      | .filtered ctx2 =>
        if ctx2.break_loop then .out DAQ_SUCCESS none ctx2
        else afpacket_daq_msg_receive ctx2 rest
      | .nullDeref => .undefined

/- ===== Supporting lemmas for the layout claims ===== -/

theorem growBlockSizeAux_zero (fuel : Nat) : ∀ fs, growBlockSizeAux fuel 0 fs = 0 := by
  induction fuel with
  | zero => intro fs; rfl
  | succ fuel ih =>
    intro fs
    rw [growBlockSizeAux]
    by_cases h : (0 : Nat) < fs
    · simp only [h, if_true, Nat.mul_zero]
      exact ih fs
    · simp only [h, if_false]

theorem growBlockSize_zero (fs : Nat) : growBlockSize 0 fs = 0 :=
  growBlockSizeAux_zero fs fs

/-- C7: calculate_layout produces a layout in which `tp_block_size` is the
page size shifted left by `order` and then doubled until it is at least
`tp_frame_size`; it fails exactly when `frames_per_block = tp_block_size /
tp_frame_size` is zero; otherwise `tp_frame_nr` is first
`size / tp_frame_size`, `tp_block_nr = tp_frame_nr / frames_per_block`, and
the final `tp_frame_nr` is snapped down to
`tp_block_nr * frames_per_block`. -/
theorem C7_calculate_layout (size snaplen page_size tp_hdrlen order : Nat) :
    ((∃ s, calculate_layout size snaplen page_size tp_hdrlen order = .error s) ↔
      growBlockSize (page_size <<< order) (layoutFrameSize snaplen tp_hdrlen) /
        layoutFrameSize snaplen tp_hdrlen = 0) ∧
    (∀ layout, calculate_layout size snaplen page_size tp_hdrlen order = .ok layout →
      layout.tp_frame_size = layoutFrameSize snaplen tp_hdrlen ∧
      (∃ k, layout.tp_block_size = 2 ^ k * (page_size <<< order) ∧
        layout.tp_frame_size ≤ layout.tp_block_size ∧
        (k = 0 ∨ ¬ layout.tp_frame_size ≤ 2 ^ (k - 1) * (page_size <<< order))) ∧
      layout.tp_block_nr =
        size / layout.tp_frame_size / (layout.tp_block_size / layout.tp_frame_size) ∧
      layout.tp_frame_nr =
        layout.tp_block_nr * (layout.tp_block_size / layout.tp_frame_size)) := by
  by_cases hz : growBlockSize (page_size <<< order) (layoutFrameSize snaplen tp_hdrlen) /
      layoutFrameSize snaplen tp_hdrlen = 0
  · constructor
    · simp [calculate_layout, hz]
    · intro layout h
      simp [calculate_layout, hz] at h
  · constructor
    · simp [calculate_layout, hz]
    · intro layout h
      simp only [calculate_layout, hz, if_false, Except.ok.injEq] at h
      subst h
      refine ⟨rfl, ?_, rfl, rfl⟩
      have hbs : 0 < page_size <<< order := by
        rcases Nat.eq_zero_or_pos (page_size <<< order) with h0 | hpos
        · rw [h0, growBlockSize_zero] at hz
          simp at hz
        · exact hpos
      obtain ⟨k, hk1, hk2, hk3⟩ :=
        growBlockSize_spec (page_size <<< order) (layoutFrameSize snaplen tp_hdrlen) hbs
      exact ⟨k, by rw [hk1], by rw [hk1]; exact hk2, hk3⟩

/-- Witness for C7 at a concrete configuration: a 16 MiB per-ring budget,
snaplen 1518, TPACKET_V2 header length 52, page size 4096, order 3. -/
theorem C7_witness :
    (⟨32768, 514, 1632, 10280⟩ : TpacketReq).tp_frame_nr =
      (⟨32768, 514, 1632, 10280⟩ : TpacketReq).tp_block_nr *
        ((⟨32768, 514, 1632, 10280⟩ : TpacketReq).tp_block_size /
          (⟨32768, 514, 1632, 10280⟩ : TpacketReq).tp_frame_size) :=
  ((C7_calculate_layout 16777216 1518 4096 52 3).2 ⟨32768, 514, 1632, 10280⟩
    (by decide)).2.2.2

/-- C8: after set_up_ring on a ring whose layout came from calculate_layout
(`tp_frame_nr = tp_block_nr * frames_per_block`) with at least one frame,
slot `idx = b * frames_per_block + f` holds address
`base + b * tp_block_size + f * tp_frame_size`, every slot's next link is
`idx + 1` except the last slot which links back to slot 0, and the cursor
points at slot 0. -/
theorem C8_set_up_ring (base : Nat) (layout : TpacketReq) (fpb : Nat)
    (hfpb : fpb = layout.tp_block_size / layout.tp_frame_size)
    (hn : layout.tp_frame_nr = layout.tp_block_nr * fpb)
    (hpos : 1 ≤ layout.tp_frame_nr) :
    (∀ b f, b < layout.tp_block_nr → f < fpb →
      (set_up_ring base layout).addresses[b * fpb + f]? =
        some (base + b * layout.tp_block_size + f * layout.tp_frame_size)) ∧
    (∀ idx, idx < layout.tp_frame_nr →
      (set_up_ring base layout).nexts[idx]? =
        some (if idx + 1 = layout.tp_frame_nr then 0 else idx + 1)) ∧
    (set_up_ring base layout).cursor = 0 := by
  refine ⟨?_, ?_, rfl⟩
  · intro b f hb hf
    have hidx : b * fpb + f < layout.tp_frame_nr := by
      rw [hn]
      calc b * fpb + f < b * fpb + fpb := by omega
      _ = (b + 1) * fpb := by ring
      _ ≤ layout.tp_block_nr * fpb := Nat.mul_le_mul_right _ (by omega)
    show (ringAddresses base layout)[b * fpb + f]? = _
    rw [ringAddresses, List.getElem?_take, if_pos hidx]
    rw [← hfpb]
    rw [flatMap_range_const_length_getElem? _ fpb (by intro bb; simp) layout.tp_block_nr
      b f hb hf]
    simp [List.getElem?_range hf]
  · intro idx hidx
    show (ringNexts layout.tp_frame_nr)[idx]? = _
    rw [ringNexts]
    by_cases hlast : idx + 1 = layout.tp_frame_nr
    · have hidx' : idx = layout.tp_frame_nr - 1 := by omega
      subst hidx'
      rw [List.getElem?_set_self (by simp; omega)]
      simp [hlast]
    · rw [List.getElem?_set_ne (by omega)]
      simp only [List.getElem?_map, List.getElem?_range hidx, Option.map_some]
      simp [hlast]

/-- Witness for C8 on a concrete 2-block, 4-frames-per-block ring. -/
theorem C8_witness :
    (set_up_ring 0 ⟨64, 2, 16, 8⟩).addresses[1 * 4 + 2]? = some (0 + 1 * 64 + 2 * 16) :=
  (C8_set_up_ring 0 ⟨64, 2, 16, 8⟩ 4 (by decide) (by decide) (by decide)).1 1 2
    (by decide) (by decide)

/-- C9: when a claimed RX slot's MAC offset plus capture length exceeds the
ring frame size, msg_receive fails fatally, releases nothing (the slot
statuses are untouched, so the offending slot stays user-owned), leaves the
current-packet scratch state alone and delivers no message. -/
theorem C9_corrupt_frame (ctx : RecvCtx) (e : EntryM) (filterResult : Nat) (inst : InstM)
    (hinst : ctx.insts[ctx.curr_instance]? = some inst)
    (hcorrupt : inst.frame_size < e.tp_mac + e.tp_snaplen) :
    recvBody ctx e filterResult = .fatal { ctx with errbuf := some .corruptFrame } ∧
    ({ ctx with errbuf := some .corruptFrame } : RecvCtx).rxStatus = ctx.rxStatus ∧
    ({ ctx with errbuf := some .corruptFrame } : RecvCtx).curr_entry = ctx.curr_entry ∧
    afpacket_daq_msg_receive ctx [.packet e filterResult] =
      .out DAQ_ERROR none { ctx with errbuf := some .corruptFrame } := by
  have hbody : recvBody ctx e filterResult = .fatal { ctx with errbuf := some .corruptFrame } := by
    rw [recvBody, hinst]
    simp only [if_pos hcorrupt]
  refine ⟨hbody, rfl, rfl, ?_⟩
  rw [afpacket_daq_msg_receive, hbody]

/-- Witness for C9: a one-instance context with frame size 100 and a slot
header claiming MAC offset 50 and capture length 100. -/
theorem C9_witness :
    recvBody
      ⟨[⟨5, 100, 1, none, none, []⟩], [1], 0, 0, [0, 0, 0, 0, 0, 0, 0], none,
        false, false, 0, none, 0, [], 0⟩
      ⟨0, 1, 200, 50, 100, 0, 0, 0, 0, []⟩ 0 =
    .fatal { (⟨[⟨5, 100, 1, none, none, []⟩], [1], 0, 0, [0, 0, 0, 0, 0, 0, 0], none,
        false, false, 0, none, 0, [], 0⟩ : RecvCtx) with errbuf := some .corruptFrame } :=
  (C9_corrupt_frame
    ⟨[⟨5, 100, 1, none, none, []⟩], [1], 0, 0, [0, 0, 0, 0, 0, 0, 0], none,
      false, false, 0, none, 0, [], 0⟩
    ⟨0, 1, 200, 50, 100, 0, 0, 0, 0, []⟩ 0 ⟨5, 100, 1, none, none, []⟩
    (by decide) (by decide)).1

/-- C10: msg_finalize on a message that is not the context's current
message, or whose descriptor is not the current packet descriptor, returns
DAQ_ERROR with the context unchanged: no verdict counter, no transmission,
no ring status byte is modified. -/
theorem C10_finalize_mismatch (ctx : RecvCtx) (verdict : Nat) (sameMsg sameDesc : Bool)
    (h : sameMsg = false ∨ sameDesc = false) :
    afpacket_daq_msg_finalize ctx sameMsg sameDesc verdict = some (DAQ_ERROR, ctx) := by
  rcases h with h | h <;> subst h <;>
    simp [afpacket_daq_msg_finalize]

/-- Witness for C10: a foreign message handed to finalize of a concrete
context. -/
theorem C10_witness :
    afpacket_daq_msg_finalize
      ⟨[], [1], 0, 0, [0, 0, 0, 0, 0, 0, 0], none, false, false, 0, some 0, 0, [], 0⟩
      false true 3 =
    some (DAQ_ERROR,
      ⟨[], [1], 0, 0, [0, 0, 0, 0, 0, 0, 0], none, false, false, 0, some 0, 0, [], 0⟩) :=
  C10_finalize_mismatch
    ⟨[], [1], 0, 0, [0, 0, 0, 0, 0, 0, 0], none, false, false, 0, some 0, 0, [], 0⟩
    3 false true (Or.inl rfl)

/-- C3: a negative poll return with EINTR is reported as the retryable
DAQ_ERROR_AGAIN; the receive loop retries the wait on it instead of
failing; and when `break_flag` is set while the thread is in poll, the loop
exits at the next outer-loop boundary returning DAQ_SUCCESS with no
message. -/
theorem C3_interrupted_retry :
    afpacket_wait_for_packet .negEintr = DAQ_ERROR_AGAIN ∧
    (∀ ps, innerWait (.negEintr :: ps) = innerWait ps) ∧
    (∀ ctx rest, ctx.break_loop = true →
      afpacket_daq_msg_receive ctx (.noPacket [.negEintr, .ready false] :: rest) =
        .out DAQ_SUCCESS none ctx) := by
  refine ⟨rfl, ?_, ?_⟩
  · intro ps
    simp [innerWait, afpacket_wait_for_packet]
  · intro ctx rest hb
    have hw : innerWait [.negEintr, .ready false] = some 1 := by
      simp [innerWait, afpacket_wait_for_packet, DAQ_ERROR_AGAIN, DAQ_ERROR]
    rw [afpacket_daq_msg_receive, hw]
    simp [hb, DAQ_SUCCESS]

/-- Witness for C3: an interrupted poll followed by a clean wakeup with the
break flag set ends the receive call with success and no message. -/
theorem C3_witness :
    afpacket_daq_msg_receive
      ⟨[], [], 0, 0, [0, 0, 0, 0, 0, 0, 0], none, true, false, 0, none, 0, [], 0⟩
      [.noPacket [.negEintr, .ready false]] =
    .out DAQ_SUCCESS none
      ⟨[], [], 0, 0, [0, 0, 0, 0, 0, 0, 0], none, true, false, 0, none, 0, [], 0⟩ :=
  C3_interrupted_retry.2.2
    ⟨[], [], 0, 0, [0, 0, 0, 0, 0, 0, 0], none, true, false, 0, none, 0, [], 0⟩ [] rfl

theorem vlanTagTpid_eq_ite (tp_status tp_vlan_tpid : Nat) :
    vlanTagTpid tp_status tp_vlan_tpid =
      if tp_vlan_tpid ≠ 0 ∧ tp_status &&& TP_STATUS_VLAN_TPID_VALID ≠ 0 then
        tp_vlan_tpid
      else ETH_P_8021Q := by
  by_cases h1 : tp_vlan_tpid = 0 <;>
    by_cases h2 : tp_status &&& TP_STATUS_VLAN_TPID_VALID = 0 <;>
      simp [vlanTagTpid, h1, h2]

theorem vlanTagTpid_lt (tp_status tp_vlan_tpid : Nat) (h : tp_vlan_tpid < 65536) :
    vlanTagTpid tp_status tp_vlan_tpid < 65536 := by
  rw [vlanTagTpid]
  split
  · exact h
  · norm_num [ETH_P_8021Q]

theorem vlanApply_getElem? (raw : List Nat)
    (tp_mac tp_status tp_vlan_tci tp_vlan_tpid : Nat)
    (hmac : VLAN_TAG_LEN ≤ tp_mac) (hraw : tp_mac + vlan_offset ≤ raw.length) :
    (∀ i, i < vlan_offset →
      (vlanApply raw tp_mac tp_status tp_vlan_tci tp_vlan_tpid)[tp_mac - VLAN_TAG_LEN + i]? =
        raw[tp_mac + i]?) ∧
    (vlanApply raw tp_mac tp_status tp_vlan_tci tp_vlan_tpid)[tp_mac + 8]? =
      some (vlanTagTpid tp_status tp_vlan_tpid / 256 % 256) ∧
    (vlanApply raw tp_mac tp_status tp_vlan_tci tp_vlan_tpid)[tp_mac + 9]? =
      some (vlanTagTpid tp_status tp_vlan_tpid % 256) ∧
    (vlanApply raw tp_mac tp_status tp_vlan_tci tp_vlan_tpid)[tp_mac + 10]? =
      some (tp_vlan_tci / 256 % 256) ∧
    (vlanApply raw tp_mac tp_status tp_vlan_tci tp_vlan_tpid)[tp_mac + 11]? =
      some (tp_vlan_tci % 256) := by
  simp only [VLAN_TAG_LEN, vlan_offset] at hmac hraw
  have hvals : ((raw.drop tp_mac).take vlan_offset).length = 12 := by
    simp only [List.length_take, List.length_drop, vlan_offset]
    omega
  have hmoved : (writeBytes raw (tp_mac - VLAN_TAG_LEN)
      ((raw.drop tp_mac).take vlan_offset)).length = raw.length :=
    writeBytes_length _ _ _
  refine ⟨?_, ?_, ?_, ?_, ?_⟩
  · intro i hi
    simp only [vlan_offset] at hi
    simp only [vlanApply]
    rw [writeBytes_getElem?_lt _ _ _ _
      (by simp only [VLAN_TAG_LEN, vlan_offset]; omega)]
    have hidx : tp_mac - VLAN_TAG_LEN + i = (tp_mac - VLAN_TAG_LEN) + i := rfl
    rw [writeBytes_getElem?_in _ _ _ i (by rw [hvals]; omega)
      (by rw [hvals]; simp only [VLAN_TAG_LEN]; omega)]
    rw [List.getElem?_take, if_pos (by simp only [vlan_offset]; omega)]
    simp [List.getElem?_drop]
  · simp only [vlanApply]
    have hidx : tp_mac + 8 = (tp_mac - VLAN_TAG_LEN + vlan_offset) + 0 := by
      simp only [VLAN_TAG_LEN, vlan_offset]
      omega
    rw [hidx, writeBytes_getElem?_in _ _ _ 0 (by simp)
      (by rw [writeBytes_length]
          simp only [List.length_cons, List.length_nil, VLAN_TAG_LEN, vlan_offset]
          omega)]
    rfl
  · simp only [vlanApply]
    have hidx : tp_mac + 9 = (tp_mac - VLAN_TAG_LEN + vlan_offset) + 1 := by
      simp only [VLAN_TAG_LEN, vlan_offset]
      omega
    rw [hidx, writeBytes_getElem?_in _ _ _ 1 (by simp)
      (by rw [writeBytes_length]
          simp only [List.length_cons, List.length_nil, VLAN_TAG_LEN, vlan_offset]
          omega)]
    rfl
  · simp only [vlanApply]
    have hidx : tp_mac + 10 = (tp_mac - VLAN_TAG_LEN + vlan_offset) + 2 := by
      simp only [VLAN_TAG_LEN, vlan_offset]
      omega
    rw [hidx, writeBytes_getElem?_in _ _ _ 2 (by simp)
      (by rw [writeBytes_length]
          simp only [List.length_cons, List.length_nil, VLAN_TAG_LEN, vlan_offset]
          omega)]
    rfl
  · simp only [vlanApply]
    have hidx : tp_mac + 11 = (tp_mac - VLAN_TAG_LEN + vlan_offset) + 3 := by
      simp only [VLAN_TAG_LEN, vlan_offset]
      omega
    rw [hidx, writeBytes_getElem?_in _ _ _ 3 (by simp)
      (by rw [writeBytes_length]
          simp only [List.length_cons, List.length_nil, VLAN_TAG_LEN, vlan_offset]
          omega)]
    rfl

/-- C4 (amended): for a TPACKET_V2 frame with kernel-reported stripped VLAN
(non-zero TCI or the vlan-valid bit) and at least 12 captured bytes,
msg_receive moves the first 12 frame bytes 4 bytes earlier in place, writes
a 4-byte tag at offset 12 of the delivered frame whose TPID is the
kernel-provided value when the tpid-valid bit is set AND that value is
non-zero (0x8100 otherwise) and whose TCI is the kernel TCI, and grows both
delivered lengths by exactly 4.  The hypotheses `hmac` and `hraw` are the
PACKET_RESERVE(4) hole and the in-slot bound guaranteed by the kernel ring
layout. -/
theorem C4_vlan_reconstruction (tp_version : Nat) (raw : List Nat)
    (tp_mac tp_snaplen tp_len tp_status tp_vlan_tci tp_vlan_tpid : Nat)
    (dataOff : Nat) (raw2 : List Nat) (caplen pktlen : Nat)
    (hres : vlanReconstruct tp_version raw tp_mac tp_snaplen tp_len tp_status
      tp_vlan_tci tp_vlan_tpid = (dataOff, raw2, caplen, pktlen))
    (hcond : vlanCond tp_version tp_status tp_vlan_tci tp_snaplen = true)
    (hmac : VLAN_TAG_LEN ≤ tp_mac)
    (hraw : tp_mac + vlan_offset ≤ raw.length)
    (htci : tp_vlan_tci < 65536)
    (htpid : tp_vlan_tpid < 65536) :
    dataOff = tp_mac - VLAN_TAG_LEN ∧
    (∀ i, i < vlan_offset → raw2[dataOff + i]? = raw[tp_mac + i]?) ∧
    (∃ hi lo, raw2[dataOff + 12]? = some hi ∧ raw2[dataOff + 13]? = some lo ∧
      hi * 256 + lo =
        (if tp_vlan_tpid ≠ 0 ∧ tp_status &&& TP_STATUS_VLAN_TPID_VALID ≠ 0 then
          tp_vlan_tpid
        else ETH_P_8021Q)) ∧
    (∃ hi lo, raw2[dataOff + 14]? = some hi ∧ raw2[dataOff + 15]? = some lo ∧
      hi * 256 + lo = tp_vlan_tci) ∧
    caplen = tp_snaplen + VLAN_TAG_LEN ∧
    pktlen = tp_len + VLAN_TAG_LEN := by
  rw [vlanReconstruct, if_pos hcond] at hres
  simp only [Prod.mk.injEq] at hres
  obtain ⟨hd, hr, hc, hp⟩ := hres
  subst hd
  subst hr
  subst hc
  subst hp
  obtain ⟨hshift, h8, h9, h10, h11⟩ :=
    vlanApply_getElem? raw tp_mac tp_status tp_vlan_tci tp_vlan_tpid hmac hraw
  have hi8 : tp_mac - VLAN_TAG_LEN + 12 = tp_mac + 8 := by
    simp only [VLAN_TAG_LEN] at hmac ⊢
    omega
  have hi9 : tp_mac - VLAN_TAG_LEN + 13 = tp_mac + 9 := by
    simp only [VLAN_TAG_LEN] at hmac ⊢
    omega
  have hi10 : tp_mac - VLAN_TAG_LEN + 14 = tp_mac + 10 := by
    simp only [VLAN_TAG_LEN] at hmac ⊢
    omega
  have hi11 : tp_mac - VLAN_TAG_LEN + 15 = tp_mac + 11 := by
    simp only [VLAN_TAG_LEN] at hmac ⊢
    omega
  have htag : vlanTagTpid tp_status tp_vlan_tpid < 65536 :=
    vlanTagTpid_lt tp_status tp_vlan_tpid htpid
  refine ⟨rfl, hshift, ?_, ?_, rfl, rfl⟩
  · refine ⟨vlanTagTpid tp_status tp_vlan_tpid / 256 % 256,
      vlanTagTpid tp_status tp_vlan_tpid % 256, ?_, ?_, ?_⟩
    · rw [hi8]; exact h8
    · rw [hi9]; exact h9
    · rw [← vlanTagTpid_eq_ite]
      omega
  · refine ⟨tp_vlan_tci / 256 % 256, tp_vlan_tci % 256, ?_, ?_, ?_⟩
    · rw [hi10]; exact h10
    · rw [hi11]; exact h11
    · omega

/-- Counterexample to C4 as frozen: with the tpid-valid status bit set but
a kernel-provided TPID of 0, the code still writes the default TPID 0x8100
(bytes 129, 0) into the tag instead of the kernel value 0.  Input: version
TPACKET_V2, status 80 (vlan-valid | tpid-valid), TCI 5, TPID 0, MAC offset
4, 12 captured bytes. -/
theorem C4_counterexample :
    ((80 : Nat) &&& TP_STATUS_VLAN_TPID_VALID ≠ 0) ∧
    vlanCond TPACKET_V2 80 5 12 = true ∧
    (vlanReconstruct TPACKET_V2 [0, 1, 2, 3, 4, 5, 6, 7, 8, 9, 10, 11, 12, 13, 14, 15]
      4 12 12 80 5 0).2.1[12]? = some 129 ∧
    (vlanReconstruct TPACKET_V2 [0, 1, 2, 3, 4, 5, 6, 7, 8, 9, 10, 11, 12, 13, 14, 15]
      4 12 12 80 5 0).2.1[13]? = some 0 ∧
    (129 * 256 + 0 : Nat) ≠ 0 := by
  decide

/-- Witness for C4 at a concrete VLAN frame: MAC offset 4, 12 captured
bytes, status 80 (vlan-valid | tpid-valid), TCI 100, TPID 0x88A8. -/
theorem C4_witness :
    (0 : Nat) = 4 - VLAN_TAG_LEN ∧
    (∀ i, i < vlan_offset →
      ([20, 21, 22, 23, 24, 25, 30, 31, 32, 33, 34, 35, 136, 168, 0, 100] :
        List Nat)[0 + i]? =
      ([10, 11, 12, 13, 20, 21, 22, 23, 24, 25, 30, 31, 32, 33, 34, 35] :
        List Nat)[4 + i]?) ∧
    (∃ hi lo,
      ([20, 21, 22, 23, 24, 25, 30, 31, 32, 33, 34, 35, 136, 168, 0, 100] :
        List Nat)[0 + 12]? = some hi ∧
      ([20, 21, 22, 23, 24, 25, 30, 31, 32, 33, 34, 35, 136, 168, 0, 100] :
        List Nat)[0 + 13]? = some lo ∧
      hi * 256 + lo =
        (if (34984 : Nat) ≠ 0 ∧ (80 : Nat) &&& TP_STATUS_VLAN_TPID_VALID ≠ 0 then
          (34984 : Nat)
        else ETH_P_8021Q)) ∧
    (∃ hi lo,
      ([20, 21, 22, 23, 24, 25, 30, 31, 32, 33, 34, 35, 136, 168, 0, 100] :
        List Nat)[0 + 14]? = some hi ∧
      ([20, 21, 22, 23, 24, 25, 30, 31, 32, 33, 34, 35, 136, 168, 0, 100] :
        List Nat)[0 + 15]? = some lo ∧
      hi * 256 + lo = 100) ∧
    (16 : Nat) = 12 + VLAN_TAG_LEN ∧
    (16 : Nat) = 12 + VLAN_TAG_LEN :=
  C4_vlan_reconstruction TPACKET_V2
    [10, 11, 12, 13, 20, 21, 22, 23, 24, 25, 30, 31, 32, 33, 34, 35]
    4 12 12 80 100 34984
    0 [20, 21, 22, 23, 24, 25, 30, 31, 32, 33, 34, 35, 136, 168, 0, 100] 16 16
    (by decide) (by decide) (by decide) (by decide) (by decide) (by decide)

/- ===== C1: the filter-miss slot release ===== -/

/-- Bridged ingress instance (peer is the instance at position 1). -/
def c1inst : InstM := ⟨7, 2048, TPACKET_V2, none, some 1, []⟩

/-- Peer egress instance without a TX ring (sendto path). -/
def c1peer : InstM := ⟨9, 2048, TPACKET_V2, none, none, []⟩

/-- A claimed RX slot with id 1: no VLAN metadata, MAC offset 4, 60
captured bytes inside a 64-byte slot. -/
def c1entry : EntryM := ⟨1, TP_STATUS_USER, 60, 4, 60, 0, 0, 0, 0, List.replicate 64 7⟩

/-- Context right after start: a filter is installed and
`curr_packet.entry` is still the NULL left by calloc. -/
def c1ctxFirst : RecvCtx :=
  ⟨[c1inst, c1peer], [TP_STATUS_USER, TP_STATUS_USER], 0, 0, [0, 0, 0, 0, 0, 0, 0],
    none, false, true, 0, none, 0, [], 0⟩

/-- Context later in the run: `curr_packet.entry` points at slot 0 (the
previously delivered frame), while the newly claimed slot is slot 1. -/
def c1ctxStale : RecvCtx :=
  ⟨[c1inst, c1peer], [TP_STATUS_USER, TP_STATUS_USER], 0, 0, [0, 0, 0, 0, 0, 0, 0],
    none, false, true, 0, some 0, 0, [], 0⟩

/-- The state the code actually produces on the stale-entry filter miss:
slot 0 (the wrong slot) is released, slot 1 (the filtered frame's own slot)
stays user-owned. -/
def c1after : RecvCtx :=
  ⟨[c1inst, { c1peer with sendtoLog := [List.replicate 60 7] }],
    [TP_STATUS_KERNEL, TP_STATUS_USER], 1, 0, [0, 0, 0, 0, 0, 0, 0],
    none, false, true, 0, some 0, 0, [], 0⟩

/-- C1 (code bug, evaluated at the failing inputs): on a filter miss the
code calls `afpacket_free_packet(afpc, &afpc->curr_packet)` even though
`curr_packet.entry` was never pointed at the claimed slot.  On the very
first filter-rejected frame this dereferences the NULL entry pointer; on
any later one it re-releases the previously delivered slot and leaves the
filtered frame's own slot user-owned.  The filter hit is counted once, the
frame is forwarded to the peer (and forwarding is a no-op on a null peer),
and the frame is not delivered — but the slot holding that very frame is
not released, contradicting the claim. -/
theorem C1_filter_miss_wrong_slot :
    recvBody c1ctxFirst c1entry 0 = .nullDeref ∧
    recvBody c1ctxStale c1entry 0 = .filtered c1after ∧
    c1after.rxStatus[c1entry.id]? = some TP_STATUS_USER ∧
    c1after.rxStatus[0]? = some TP_STATUS_KERNEL ∧
    c1after.packets_filtered = c1ctxStale.packets_filtered + 1 ∧
    (c1after.insts.getD 1 c1peer).sendtoLog = [List.replicate 60 7] ∧
    (∀ insts pd len, afpacket_transmit_packet insts none pd len = (DAQ_SUCCESS, insts)) := by
  refine ⟨by decide, by decide, by decide, by decide, by decide, by decide, ?_⟩
  intro insts pd len
  rfl

/- ===== C2: verdict disposition on finalize ===== -/

theorem translation_pass_of_mem (v : Nat)
    (h : v = DAQ_VERDICT_PASS ∨ v = DAQ_VERDICT_REPLACE ∨ v = DAQ_VERDICT_WHITELIST ∨
      v = DAQ_VERDICT_IGNORE) :
    verdict_translation_table.getD v DAQ_VERDICT_BLOCK = DAQ_VERDICT_PASS := by
  rcases h with rfl | rfl | rfl | rfl <;> rfl

theorem translation_block_of_mem (v : Nat)
    (h : v = DAQ_VERDICT_BLOCK ∨ v = DAQ_VERDICT_BLACKLIST ∨ v = DAQ_VERDICT_RETRY) :
    verdict_translation_table.getD v DAQ_VERDICT_BLOCK = DAQ_VERDICT_BLOCK := by
  rcases h with rfl | rfl | rfl <;> rfl

/-- A transmit attempt against a full TX ring changes nothing and reports
the transient DAQ_ERROR_AGAIN. -/
theorem transmit_tx_full (insts : List InstM) (e : Nat) (pinst : InstM) (tx : TxRingM)
    (pd : List Nat) (len : Nat)
    (h3 : insts[e]? = some pinst) (h4 : pinst.txRing = some tx)
    (h5 : tx.statuses.getD tx.cursor 0 ≠ TP_STATUS_AVAILABLE) :
    afpacket_transmit_packet insts (some e) pd len = (DAQ_ERROR_AGAIN, insts) := by
  simp only [afpacket_transmit_packet, h3, h4, if_pos h5]

/-- Reduction of finalize when the message and descriptor identity checks
pass: sanitize, count, translate, forward on pass, free. -/
theorem finalize_same_eq (ctx : RecvCtx) (verdict : Nat) :
    afpacket_daq_msg_finalize ctx true true verdict =
      (match afpacket_free_packet
        (if verdict_translation_table.getD
            (if MAX_DAQ_VERDICT ≤ verdict then DAQ_VERDICT_PASS else verdict)
            DAQ_VERDICT_BLOCK = DAQ_VERDICT_PASS then
          { ctx with
            verdicts := ctx.verdicts.set
              (if MAX_DAQ_VERDICT ≤ verdict then DAQ_VERDICT_PASS else verdict)
              (ctx.verdicts.getD
                (if MAX_DAQ_VERDICT ≤ verdict then DAQ_VERDICT_PASS else verdict) 0 + 1),
            insts := (afpacket_transmit_packet ctx.insts
              (match ctx.insts[ctx.curr_pkt_instance]? with
               | some i => i.peer
               | none => none) ctx.curr_data ctx.curr_length).2 }
        else
          { ctx with
            verdicts := ctx.verdicts.set
              (if MAX_DAQ_VERDICT ≤ verdict then DAQ_VERDICT_PASS else verdict)
              (ctx.verdicts.getD
                (if MAX_DAQ_VERDICT ≤ verdict then DAQ_VERDICT_PASS else verdict) 0 + 1) })
        with
      | some ctx3 => some (DAQ_SUCCESS, ctx3)
      | none => none) := rfl

/-- C2 (amended): finalize on the current message sanitizes the verdict
(anything ≥ MAX_DAQ_VERDICT becomes pass), bumps the per-verdict counter at
the sanitized index, forwards pass/replace/whitelist/ignore to the ingress
instance's peer (the transmit attempt's state change; block/blacklist/retry
transmit nothing), then releases the slot and returns DAQ_SUCCESS even when
forwarding failed transiently because the TX ring was full — in which case
the instance state, `packets_injected` and the error buffer are all left
unchanged (nothing is recorded). -/
theorem C2_finalize_disposition (ctx : RecvCtx) (verdict v en : Nat)
    (hen : ctx.curr_entry = some en)
    (hv : v = if MAX_DAQ_VERDICT ≤ verdict then DAQ_VERDICT_PASS else verdict) :
    ∃ ctx2, afpacket_daq_msg_finalize ctx true true verdict = some (DAQ_SUCCESS, ctx2) ∧
      ctx2.verdicts = ctx.verdicts.set v (ctx.verdicts.getD v 0 + 1) ∧
      ((v = DAQ_VERDICT_PASS ∨ v = DAQ_VERDICT_REPLACE ∨ v = DAQ_VERDICT_WHITELIST ∨
          v = DAQ_VERDICT_IGNORE) →
        ctx2.insts = (afpacket_transmit_packet ctx.insts
          (match ctx.insts[ctx.curr_pkt_instance]? with
           | some i => i.peer
           | none => none) ctx.curr_data ctx.curr_length).2) ∧
      ((v = DAQ_VERDICT_BLOCK ∨ v = DAQ_VERDICT_BLACKLIST ∨ v = DAQ_VERDICT_RETRY) →
        ctx2.insts = ctx.insts) ∧
      ctx2.rxStatus = ctx.rxStatus.set en TP_STATUS_KERNEL ∧
      ctx2.packets_injected = ctx.packets_injected ∧
      ctx2.errbuf = ctx.errbuf ∧
      (∀ pIdx i pinst tx,
        ctx.insts[ctx.curr_pkt_instance]? = some i → i.peer = some pIdx →
        ctx.insts[pIdx]? = some pinst → pinst.txRing = some tx →
        tx.statuses.getD tx.cursor 0 ≠ TP_STATUS_AVAILABLE →
        ctx2.insts = ctx.insts) := by
  subst hv
  rw [finalize_same_eq]
  by_cases hpass : verdict_translation_table.getD
      (if MAX_DAQ_VERDICT ≤ verdict then DAQ_VERDICT_PASS else verdict)
      DAQ_VERDICT_BLOCK = DAQ_VERDICT_PASS
  · rw [if_pos hpass]
    rw [afpacket_free_packet]
    simp only [hen]
    refine ⟨_, rfl, rfl, ?_, ?_, rfl, rfl, rfl, ?_⟩
    · intro _
      rfl
    · intro hmem
      have hb := translation_block_of_mem _ hmem
      rw [hpass] at hb
      exact absurd hb (by decide)
    · intro pIdx i pinst tx h1 h2 h3 h4 h5
      show (afpacket_transmit_packet ctx.insts
        (match ctx.insts[ctx.curr_pkt_instance]? with
         | some i => i.peer
         | none => none) ctx.curr_data ctx.curr_length).2 = ctx.insts
      rw [h1]
      show (afpacket_transmit_packet ctx.insts i.peer ctx.curr_data ctx.curr_length).2 =
        ctx.insts
      rw [h2, transmit_tx_full ctx.insts pIdx pinst tx ctx.curr_data ctx.curr_length h3 h4 h5]
  · rw [if_neg hpass]
    rw [afpacket_free_packet]
    simp only [hen]
    refine ⟨_, rfl, rfl, ?_, ?_, rfl, rfl, rfl, ?_⟩
    · intro hmem
      exact absurd (translation_pass_of_mem _ hmem) hpass
    · intro _
      rfl
    · intro pIdx i pinst tx _ _ _ _ _
      rfl

/-- A minimal started context whose current message sits in slot 0. -/
def c2wctx : RecvCtx :=
  ⟨[], [TP_STATUS_USER], 0, 0, [0, 0, 0, 0, 0, 0, 0], none, false, false, 0,
    some 0, 0, [], 0⟩

/-- Witness for C2 at verdict 9 (out of range, clamped to pass) on a
concrete context. -/
theorem C2_witness :
    ∃ ctx2, afpacket_daq_msg_finalize c2wctx true true 9 = some (DAQ_SUCCESS, ctx2) ∧
      ctx2.verdicts = c2wctx.verdicts.set 0 (c2wctx.verdicts.getD 0 0 + 1) ∧
      ((0 = DAQ_VERDICT_PASS ∨ 0 = DAQ_VERDICT_REPLACE ∨ 0 = DAQ_VERDICT_WHITELIST ∨
          0 = DAQ_VERDICT_IGNORE) →
        ctx2.insts = (afpacket_transmit_packet c2wctx.insts
          (match c2wctx.insts[c2wctx.curr_pkt_instance]? with
           | some i => i.peer
           | none => none) c2wctx.curr_data c2wctx.curr_length).2) ∧
      ((0 = DAQ_VERDICT_BLOCK ∨ 0 = DAQ_VERDICT_BLACKLIST ∨ 0 = DAQ_VERDICT_RETRY) →
        ctx2.insts = c2wctx.insts) ∧
      ctx2.rxStatus = c2wctx.rxStatus.set 0 TP_STATUS_KERNEL ∧
      ctx2.packets_injected = c2wctx.packets_injected ∧
      ctx2.errbuf = c2wctx.errbuf ∧
      (∀ pIdx i pinst tx,
        c2wctx.insts[c2wctx.curr_pkt_instance]? = some i → i.peer = some pIdx →
        c2wctx.insts[pIdx]? = some pinst → pinst.txRing = some tx →
        tx.statuses.getD tx.cursor 0 ≠ TP_STATUS_AVAILABLE →
        ctx2.insts = c2wctx.insts) :=
  C2_finalize_disposition c2wctx 9 0 0 rfl (by decide)

/-- Bridged ingress instance for the C2 counterexample. -/
def c2A : InstM := ⟨7, 2048, TPACKET_V2, none, some 1, []⟩

/-- Its peer, whose single-slot TX ring is busy (status 2, "sending"). -/
def c2B : InstM := ⟨9, 2048, TPACKET_V2, some ⟨[2], [[]], [0], 0⟩, none, []⟩

/-- Context with a delivered message from instance 0 awaiting finalize. -/
def c2ctx : RecvCtx :=
  ⟨[c2A, c2B], [TP_STATUS_USER], 0, 0, [0, 0, 0, 0, 0, 0, 0], none, false, false,
    0, some 0, 0, List.replicate 60 7, 60⟩

/-- What finalize(pass) actually produces there: verdict counted, slot
released, TX attempt failed transiently — and nothing else changed. -/
def c2after : RecvCtx :=
  ⟨[c2A, c2B], [TP_STATUS_KERNEL], 0, 0, [1, 0, 0, 0, 0, 0, 0], none, false, false,
    0, some 0, 0, List.replicate 60 7, 60⟩

/-- Counterexample to C2 as frozen: when the TX ring is full during inline
forwarding on verdict pass, finalize returns success with
`packets_injected` untouched — but contrary to the claim nothing is
recorded in the error buffer (it stays empty; the DPE for a full TX ring
exists only in `afpacket_daq_inject`). -/
theorem C2_counterexample :
    c2B.txRing = some ⟨[2], [[]], [0], 0⟩ ∧
    ((2 : Nat) ≠ TP_STATUS_AVAILABLE) ∧
    afpacket_daq_msg_finalize c2ctx true true DAQ_VERDICT_PASS =
      some (DAQ_SUCCESS, c2after) ∧
    c2after.errbuf = c2ctx.errbuf ∧
    c2after.errbuf = none ∧
    c2after.packets_injected = c2ctx.packets_injected := by
  decide

/- ===== C5: buffer budget split across rings ===== -/

theorem numRings_foldl (insts : List InstP) : ∀ a : Nat,
    insts.foldl (fun acc i => acc + if i.peer.isSome then 2 else 1) a =
      a + numRings insts := by
  induction insts with
  | nil => intro a; simp [numRings]
  | cons x xs ih =>
    intro a
    rw [numRings]
    simp only [List.foldl_cons]
    rw [ih, ih]
    omega

/-- The ring count sums one per unbridged and two per bridged instance. -/
theorem numRings_eq (insts : List InstP) :
    numRings insts = 2 * (insts.filter (fun i => i.peer.isSome)).length +
      (insts.filter (fun i => i.peer.isNone)).length := by
  induction insts with
  | nil => rfl
  | cons x xs ih =>
    rw [numRings, List.foldl_cons, numRings_foldl]
    cases hx : x.peer with
    | none =>
      simp only [List.filter_cons, hx, Option.isSome_none, Option.isNone_none,
        Bool.false_eq_true, if_false, if_true, List.length_cons]
      omega
    | some p =>
      simp only [List.filter_cons, hx, Option.isSome_some, Option.isNone_some,
        Bool.false_eq_true, if_false, if_true, List.length_cons]
      omega

/-- The device string "eth0:eth1". -/
def c5dev : List Nat := [101, 116, 104, 48, 58, 101, 116, 104, 49]

/-- The context initialize produces for "eth0:eth1" in inline mode with the
default budget: two bridged instances and 32 MiB per ring. -/
def c5ctx : AFPContext :=
  ⟨[⟨[101, 116, 104, 49], 1, some 0⟩, ⟨[101, 116, 104, 48], 0, some 1⟩], 2, 33554432⟩

/-- C5: initialize splits the byte budget (buffer_size_mb, else the
environment variable, "max" or nothing meaning the 128 MB default) evenly
across rings, counting one ring per unbridged instance and two per bridged
instance; for "eth0:eth1" inline with the default budget this yields two
instances bridged as mutual peers and 32 MiB per ring. -/
theorem C5_buffer_split :
    (∀ passive dev bufOpt envOpt ctx,
      afpacket_daq_init passive dev bufOpt envOpt = .ok ctx →
      ctx.size = resolveSizeMB bufOpt envOpt * 1024 * 1024 % 4294967296 /
        (2 * (ctx.insts.filter (fun i => i.peer.isSome)).length +
         (ctx.insts.filter (fun i => i.peer.isNone)).length)) ∧
    (∀ envOpt n, resolveSizeMB (some (.mb n)) envOpt = n) ∧
    (∀ n, resolveSizeMB none (some (.mb n)) = n) ∧
    (∀ envOpt, resolveSizeMB (some .maxim) envOpt = AF_PACKET_DEFAULT_BUFFER_SIZE) ∧
    resolveSizeMB none none = AF_PACKET_DEFAULT_BUFFER_SIZE ∧
    afpacket_daq_init false c5dev none none = .ok c5ctx ∧
    c5ctx.intf_count = 2 ∧
    c5ctx.size = 33554432 ∧
    (∃ a b, c5ctx.insts = [a, b] ∧ a.peer = some b.idx ∧ b.peer = some a.idx) := by
  refine ⟨?_, fun envOpt n => rfl, fun n => rfl, fun envOpt => rfl, rfl,
    by decide, rfl, rfl, ?_⟩
  · intro passive dev bufOpt envOpt ctx h
    rw [afpacket_daq_init] at h
    cases hp : parseDevice passive dev with
    | error e => rw [hp] at h; cases h
    | ok st =>
      rw [hp] at h
      cases h
      show _ * 1024 * 1024 % 4294967296 / numRings st.insts = _
      rw [numRings_eq]
  · exact ⟨⟨[101, 116, 104, 49], 1, some 0⟩, ⟨[101, 116, 104, 48], 0, some 1⟩,
      rfl, rfl, rfl⟩

/-- Witness for C5's general split equation at the concrete "eth0:eth1"
run. -/
theorem C5_witness :
    c5ctx.size = resolveSizeMB none none * 1024 * 1024 % 4294967296 /
      (2 * (c5ctx.insts.filter (fun i => i.peer.isSome)).length +
       (c5ctx.insts.filter (fun i => i.peer.isNone)).length) :=
  C5_buffer_split.1 false c5dev none none c5ctx (by decide)

/- ===== C6: device-string rules and bridge pairing ===== -/

/-- The non-empty tokens of a device string, mirroring the parse loop's
walk (same fuel discipline as `parseLoopAux`). -/
def tokensOfAux : Nat → List Nat → List (List Nat)
  | _, [] => []
  | 0, _ :: _ => []
  | fuel + 1, c :: cs =>
    let tok := (c :: cs).takeWhile (fun b => b ≠ colonByte)
    if tok.length = 0 then tokensOfAux fuel cs
    else tok :: tokensOfAux fuel ((c :: cs).drop tok.length)

def tokensOf (dev : List Nat) : List (List Nat) := tokensOfAux dev.length dev

/-- The instance list consists of consecutive mutually-peered pairs
(newest first, as the parser prepends). -/
def pairedB : List InstP → Bool
  | [] => true
  | _ :: [] => false
  | b :: a :: rest => (b.peer == some a.idx) && (a.peer == some b.idx) && pairedB rest

/-- Parser-state invariant for non-passive parsing: with `num_intfs = 0`
the instances pair up perfectly; with `num_intfs = 1` the newest instance
is still unpaired and the rest pair up; creation ids are distinct and below
`next_id`; instance names are distinct. -/
def PairInv (st : PState) : Prop :=
  (match st.num_intfs, st.insts with
   | 0, l => pairedB l = true
   | 1, x :: rest => x.peer = none ∧ pairedB rest = true
   | _, _ => False) ∧
  (st.insts.map (fun i => i.idx)).Nodup ∧
  (∀ i ∈ st.insts, i.idx < st.next_id) ∧
  (st.insts.map (fun i => i.name)).Nodup

theorem findBridgePeersAux_skip (n1 n2 : List Nat) :
    ∀ (l : List InstP) (pos : Nat) (acc : Option Nat × Option Nat),
    (∀ i ∈ l, i.name ≠ n1 ∧ i.name ≠ n2) →
    findBridgePeersAux n1 n2 l pos acc = acc := by
  intro l
  induction l with
  | nil => intro pos acc _; rfl
  | cons x xs ih =>
    intro pos acc hx
    rw [findBridgePeersAux]
    rw [if_neg (hx x (by simp)).1, if_neg (hx x (by simp)).2]
    exact ih (pos + 1) acc (fun i hi => hx i (by simp [hi]))

/-- create_bridge on a list headed by the two freshly parsed instances of a
pair, all names distinct: the scan finds exactly those two (the newer at
position 0 matching `device_name2`, the older at position 1 matching
`device_name1`) and links them mutually, touching nothing else. -/
theorem create_bridge_head_pair (i1 i2 : InstP) (rest : List InstP)
    (hne : i2.name ≠ i1.name)
    (h1 : ∀ j ∈ rest, j.name ≠ i1.name) (h2 : ∀ j ∈ rest, j.name ≠ i2.name) :
    create_bridge (i2 :: i1 :: rest) i1.name i2.name =
      some ({ i2 with peer := some i1.idx } :: { i1 with peer := some i2.idx } :: rest) := by
  have hfind : findBridgePeers (i2 :: i1 :: rest) i1.name i2.name = (some 1, some 0) := by
    rw [findBridgePeers, findBridgePeersAux]
    rw [if_neg hne, if_pos rfl]
    rw [findBridgePeersAux, if_pos rfl]
    exact findBridgePeersAux_skip _ _ rest 2 _ (fun j hj => ⟨h1 j hj, h2 j hj⟩)
  rw [create_bridge, hfind]
  simp [List.set]

theorem handleToken_counts (passive : Bool) (tok : List Nat) (st st2 : PState) (stop : Bool)
    (h : handleToken passive tok st = .ok (st2, stop))
    (hnum : passive = false → st.num_intfs ≤ 1) :
    stop = false ∧ st2.intf_count = st.intf_count + 1 ∧
    st2.intf_count < AF_PACKET_MAX_INTERFACES ∧
    (passive = false → st2.num_intfs = (st.num_intfs + 1) % 2 ∧ st2.num_intfs ≤ 1) := by
  by_cases hcap : AF_PACKET_MAX_INTERFACES ≤ st.intf_count + 1
  · rw [handleToken, if_pos hcap] at h
    cases h
  · rw [handleToken, if_neg hcap] at h
    cases passive with
    | true =>
      simp only [if_true] at h
      simp only [Except.ok.injEq, Prod.mk.injEq] at h
      obtain ⟨hst2, hstop⟩ := h
      subst hst2
      refine ⟨hstop.symm, rfl, by simp only [AF_PACKET_MAX_INTERFACES] at hcap ⊢; omega, ?_⟩
      intro hfalse
      cases hfalse
    | false =>
      have hnum1 : st.num_intfs ≤ 1 := hnum rfl
      simp only [Bool.false_eq_true, if_false] at h
      cases hn : st.num_intfs with
      | zero =>
        rw [hn] at h
        simp only [Nat.zero_add, Nat.reduceEqDiff, if_false] at h
        norm_num at h
        obtain ⟨hst2, hstop⟩ := h
        subst hst2
        refine ⟨hstop, rfl, by simp only [AF_PACKET_MAX_INTERFACES] at hcap ⊢; omega, ?_⟩
        intro _
        simp [hn]
      | succ m =>
        cases m with
        | zero =>
          rw [hn] at h
          norm_num at h
          cases hsts : st.insts with
          | nil =>
            rw [hsts] at h
            cases h
          | cons y ys =>
            rw [hsts] at h
            simp only [List.head?_cons] at h
            cases hcb : create_bridge (⟨tok, st.next_id, none⟩ :: y :: ys) y.name tok with
            | none =>
              rw [hcb] at h
              cases h
            | some insts2 =>
              rw [hcb] at h
              simp only [Except.ok.injEq, Prod.mk.injEq] at h
              obtain ⟨hst2, hstop⟩ := h
              subst hst2
              refine ⟨hstop.symm, rfl, by simp only [AF_PACKET_MAX_INTERFACES] at hcap ⊢; omega, ?_⟩
              intro _
              simp [hn]
        | succ k =>
          rw [hn] at hnum1
          omega

theorem handleToken_pair (tok : List Nat) (st st2 : PState) (stop : Bool)
    (h : handleToken false tok st = .ok (st2, stop))
    (hinv : PairInv st)
    (hname : tok ∉ st.insts.map (fun i => i.name)) :
    PairInv st2 ∧
    st2.insts.map (fun i => i.name) = tok :: st.insts.map (fun i => i.name) := by
  obtain ⟨hpair, hidx, hbound, hnames⟩ := hinv
  have hnotin : st.next_id ∉ st.insts.map (fun i => i.idx) := by
    intro hmem
    obtain ⟨i, hi, hieq⟩ := List.mem_map.mp hmem
    have := hbound i hi
    omega
  by_cases hcap : AF_PACKET_MAX_INTERFACES ≤ st.intf_count + 1
  · rw [handleToken, if_pos hcap] at h
    cases h
  · rw [handleToken, if_neg hcap] at h
    simp only [Bool.false_eq_true, if_false] at h
    cases hn : st.num_intfs with
    | zero =>
      have hp : pairedB st.insts = true := by
        have hh := hpair
        rw [hn] at hh
        exact hh
      rw [hn] at h
      norm_num at h
      obtain ⟨hst2, hstop⟩ := h
      subst hst2
      refine ⟨⟨⟨rfl, hp⟩, ?_, ?_, ?_⟩, by simp⟩
      · simp only [List.map_cons]
        exact List.nodup_cons.mpr ⟨hnotin, hidx⟩
      · intro i hi
        rcases List.mem_cons.mp hi with rfl | hi'
        · simp
        · exact Nat.lt_succ_of_lt (hbound i hi')
      · simp only [List.map_cons]
        exact List.nodup_cons.mpr ⟨hname, hnames⟩
    | succ m =>
      cases m with
      | zero =>
        cases hsts : st.insts with
        | nil =>
          have hF : False := by
            have hh := hpair
            rw [hn, hsts] at hh
            exact hh
          exact absurd hF (by simp)
        | cons y ys =>
          have hx : y.peer = none ∧ pairedB ys = true := by
            have hh := hpair
            rw [hn, hsts] at hh
            exact hh
          rw [hsts] at hname hnames hbound hidx hnotin
          have hyname : tok ≠ y.name := by
            intro hcon
            exact hname (by simp [hcon])
          have hh1 : ∀ j ∈ ys, j.name ≠ y.name := by
            intro j hj hcon
            rw [List.map_cons] at hnames
            have hcons := List.nodup_cons.mp hnames
            exact hcons.1 (by rw [← hcon]; exact List.mem_map.mpr ⟨j, hj, rfl⟩)
          have hh2 : ∀ j ∈ ys, j.name ≠ tok := by
            intro j hj hcon
            exact hname (by simp [List.mem_map]; right; exact ⟨j, hj, hcon⟩)
          have hcb : create_bridge (⟨tok, st.next_id, none⟩ :: y :: ys) y.name tok =
              some (⟨tok, st.next_id, some y.idx⟩ ::
                { y with peer := some st.next_id } :: ys) := by
            have hcb0 := create_bridge_head_pair y ⟨tok, st.next_id, none⟩ ys
              (by simpa using hyname) hh1 (by simpa using hh2)
            simpa using hcb0
          rw [hn, hsts] at h
          simp only [List.head?_cons] at h
          norm_num at h
          rw [hcb] at h
          simp only [Except.ok.injEq, Prod.mk.injEq] at h
          obtain ⟨hst2, hstop⟩ := h
          subst hst2
          refine ⟨⟨?_, ?_, ?_, ?_⟩, by simp⟩
          · show pairedB (⟨tok, st.next_id, some y.idx⟩ ::
              { y with peer := some st.next_id } :: ys) = true
            simp [pairedB, hx.2]
          · simp only [List.map_cons]
            refine List.nodup_cons.mpr ⟨?_, by simpa using hidx⟩
            simpa using hnotin
          · intro i hi
            rcases List.mem_cons.mp hi with rfl | hi'
            · simp
            · rcases List.mem_cons.mp hi' with rfl | hi''
              · have := hbound y (by simp)
                simp only []
                omega
              · exact Nat.lt_succ_of_lt (hbound i (by simp [hi'']))
          · simp only [List.map_cons]
            refine List.nodup_cons.mpr ⟨by simpa using hname, by simpa using hnames⟩
      | succ k =>
        have hF : False := by
          have hh := hpair
          rw [hn] at hh
          exact hh
        exact absurd hF (by simp)

theorem parseLoopAux_counts (passive : Bool) : ∀ (fuel : Nat) (l : List Nat) (st st' : PState),
    parseLoopAux passive fuel l st = .ok st' →
    (passive = false → st.num_intfs ≤ 1) →
    (∀ t ∈ tokensOfAux fuel l, t.length < IFNAMSIZ) ∧
    st'.intf_count = st.intf_count + (tokensOfAux fuel l).length ∧
    (tokensOfAux fuel l = [] → st' = st) ∧
    (tokensOfAux fuel l ≠ [] → st'.intf_count < AF_PACKET_MAX_INTERFACES) ∧
    (passive = false → st'.num_intfs = (st.num_intfs + (tokensOfAux fuel l).length) % 2 ∧
      st'.num_intfs ≤ 1) := by
  intro fuel
  induction fuel with
  | zero =>
    intro l st st' h hnum
    have hst : st = st' := by
      cases l with
      | nil =>
        simp only [parseLoopAux, Except.ok.injEq] at h
        exact h
      | cons c cs =>
        simp only [parseLoopAux, Except.ok.injEq] at h
        exact h
    subst hst
    have ht : tokensOfAux 0 l = [] := by
      cases l with
      | nil => rfl
      | cons c cs => rfl
    rw [ht]
    refine ⟨by simp, by simp, fun _ => rfl, by simp, ?_⟩
    intro hp
    have hle := hnum hp
    simp only [List.length_nil, Nat.add_zero]
    exact ⟨by omega, hle⟩
  | succ fuel ih =>
    intro l st st' h hnum
    cases l with
    | nil =>
      simp only [parseLoopAux, Except.ok.injEq] at h
      subst h
      refine ⟨by simp [tokensOfAux], by simp [tokensOfAux], fun _ => rfl,
        by simp [tokensOfAux], ?_⟩
      intro hp
      have hle := hnum hp
      simp only [tokensOfAux, List.length_nil, Nat.add_zero]
      exact ⟨by omega, hle⟩
    | cons c cs =>
      simp only [parseLoopAux] at h
      by_cases h16 : IFNAMSIZ ≤ ((c :: cs).takeWhile (fun b => b ≠ colonByte)).length
      · rw [if_pos h16] at h
        cases h
      · rw [if_neg h16] at h
        by_cases h0 : ((c :: cs).takeWhile (fun b => b ≠ colonByte)).length = 0
        · rw [if_pos h0] at h
          have htok : tokensOfAux (fuel + 1) (c :: cs) = tokensOfAux fuel cs := by
            simp only [tokensOfAux]
            rw [if_pos h0]
          rw [htok]
          exact ih cs st st' h hnum
        · rw [if_neg h0] at h
          cases hht : handleToken passive ((c :: cs).takeWhile (fun b => b ≠ colonByte)) st with
          | error e =>
            rw [hht] at h
            cases h
          | ok p =>
            obtain ⟨st2, stop⟩ := p
            rw [hht] at h
            obtain ⟨hstop, hcnt2, hcap2, hnum2⟩ :=
              handleToken_counts passive _ st st2 stop hht hnum
            subst hstop
            simp only [Bool.false_eq_true, if_false] at h
            have htok : tokensOfAux (fuel + 1) (c :: cs) =
                (c :: cs).takeWhile (fun b => b ≠ colonByte) ::
                  tokensOfAux fuel
                    ((c :: cs).drop ((c :: cs).takeWhile (fun b => b ≠ colonByte)).length) := by
              simp only [tokensOfAux]
              rw [if_neg h0]
            rw [htok]
            obtain ⟨ihmem, ihcnt, ihnil, ihcap, ihnum⟩ := ih _ st2 st' h
              (fun hp => ((hnum2 hp).2))
            refine ⟨?_, ?_, fun hx => absurd hx (by simp), ?_, ?_⟩
            · intro t ht
              rcases List.mem_cons.mp ht with rfl | ht'
              · omega
              · exact ihmem t ht'
            · rw [ihcnt, hcnt2]
              simp
              omega
            · intro _
              rcases hrest : tokensOfAux fuel
                  ((c :: cs).drop ((c :: cs).takeWhile (fun b => b ≠ colonByte)).length) with
                _ | ⟨r, rs⟩
              · rw [ihcnt, hrest]
                simpa using hcap2
              · exact ihcap (by rw [hrest]; simp)
            · intro hp
              obtain ⟨ihn1, ihn2⟩ := ihnum hp
              obtain ⟨hn1, _⟩ := hnum2 hp
              refine ⟨?_, ihn2⟩
              rw [ihn1, hn1]
              simp only [List.length_cons]
              omega

theorem parseLoopAux_pair : ∀ (fuel : Nat) (l : List Nat) (st st' : PState),
    parseLoopAux false fuel l st = .ok st' →
    PairInv st →
    (st.insts.map (fun i => i.name) ++ tokensOfAux fuel l).Nodup →
    PairInv st' := by
  intro fuel
  induction fuel with
  | zero =>
    intro l st st' h hinv _
    have hst : st = st' := by
      cases l with
      | nil => simpa only [parseLoopAux, Except.ok.injEq] using h
      | cons c cs => simpa only [parseLoopAux, Except.ok.injEq] using h
    subst hst
    exact hinv
  | succ fuel ih =>
    intro l st st' h hinv hnd
    cases l with
    | nil =>
      have hst : st = st' := by simpa only [parseLoopAux, Except.ok.injEq] using h
      subst hst
      exact hinv
    | cons c cs =>
      simp only [parseLoopAux] at h
      by_cases h16 : IFNAMSIZ ≤ ((c :: cs).takeWhile (fun b => b ≠ colonByte)).length
      · rw [if_pos h16] at h
        cases h
      · rw [if_neg h16] at h
        by_cases h0 : ((c :: cs).takeWhile (fun b => b ≠ colonByte)).length = 0
        · rw [if_pos h0] at h
          refine ih cs st st' h hinv ?_
          have htok : tokensOfAux (fuel + 1) (c :: cs) = tokensOfAux fuel cs := by
            simp only [tokensOfAux]
            rw [if_pos h0]
          rwa [htok] at hnd
        · rw [if_neg h0] at h
          have htok : tokensOfAux (fuel + 1) (c :: cs) =
              (c :: cs).takeWhile (fun b => b ≠ colonByte) ::
                tokensOfAux fuel
                  ((c :: cs).drop ((c :: cs).takeWhile (fun b => b ≠ colonByte)).length) := by
            simp only [tokensOfAux]
            rw [if_neg h0]
          rw [htok] at hnd
          have hnum1 : st.num_intfs ≤ 1 := by
            by_contra hgt
            obtain ⟨k, hk⟩ : ∃ k, st.num_intfs = k + 2 := ⟨st.num_intfs - 2, by omega⟩
            have hp := hinv.1
            rw [hk] at hp
            exact hp
          cases hht : handleToken false ((c :: cs).takeWhile (fun b => b ≠ colonByte)) st with
          | error e =>
            rw [hht] at h
            cases h
          | ok p =>
            obtain ⟨st2, stop⟩ := p
            rw [hht] at h
            obtain ⟨hstop, _, _, _⟩ := handleToken_counts false _ st st2 stop hht
              (fun _ => hnum1)
            subst hstop
            simp only [Bool.false_eq_true, if_false] at h
            have hdisj := List.disjoint_of_nodup_append hnd
            have hname : (c :: cs).takeWhile (fun b => b ≠ colonByte) ∉
                st.insts.map (fun i => i.name) := by
              intro hmem
              exact hdisj hmem (by simp)
            obtain ⟨hinv2, hnames2⟩ := handleToken_pair _ st st2 false hht hinv hname
            refine ih _ st2 st' h hinv2 ?_
            rw [hnames2]
            have hperm := @List.perm_middle (List Nat)
              ((c :: cs).takeWhile (fun b => b ≠ colonByte))
              (st.insts.map (fun i => i.name))
              (tokensOfAux fuel
                ((c :: cs).drop ((c :: cs).takeWhile (fun b => b ≠ colonByte)).length))
            exact hperm.nodup hnd

theorem pairedB_partner : ∀ (l : List InstP), pairedB l = true →
    ∀ j ∈ l, ∃ k, k ∈ l ∧ j.peer = some k.idx ∧ k.peer = some j.idx
  | [], _, j, hj => absurd hj (by simp)
  | [x], hl, _, _ => by simp [pairedB] at hl
  | b :: a :: rest, hl, j, hj => by
    rw [pairedB] at hl
    simp only [Bool.and_eq_true, beq_iff_eq] at hl
    obtain ⟨⟨hb, ha⟩, hrest⟩ := hl
    rcases List.mem_cons.mp hj with rfl | hj'
    · exact ⟨a, by simp, hb, ha⟩
    · rcases List.mem_cons.mp hj' with rfl | hj''
      · exact ⟨b, by simp, ha, hb⟩
      · obtain ⟨k, hk, h1, h2⟩ := pairedB_partner rest hrest j hj''
        exact ⟨k, by simp [hk], h1, h2⟩

/-- On a perfectly paired instance list with distinct creation ids, the
peer relation is symmetric. -/
theorem pairedB_symm (l : List InstP) (hl : pairedB l = true)
    (hidx : (l.map (fun i => i.idx)).Nodup) :
    ∀ i ∈ l, ∀ j ∈ l, (i.peer = some j.idx ↔ j.peer = some i.idx) := by
  have hinj := List.inj_on_of_nodup_map hidx
  intro i hi j hj
  constructor
  · intro hp
    obtain ⟨k, hk, h1, h2⟩ := pairedB_partner l hl i hi
    have heq : k.idx = j.idx := by
      have := h1.symm.trans hp
      injection this
    have hkj : k = j := hinj hk hj heq
    rw [← hkj]
    exact h2
  · intro hp
    obtain ⟨k, hk, h1, h2⟩ := pairedB_partner l hl j hj
    have heq : k.idx = i.idx := by
      have := h1.symm.trans hp
      injection this
    have hkj : k = i := hinj hk hi heq
    rw [← hkj]
    exact h2

theorem parseDevice_ok_props (passive : Bool) (dev : List Nat) (st : PState)
    (h : parseDevice passive dev = .ok st) :
    (∀ t ∈ tokensOf dev, t.length < IFNAMSIZ) ∧
    st.intf_count = (tokensOf dev).length ∧
    (tokensOf dev).length < AF_PACKET_MAX_INTERFACES ∧
    (passive = false → (tokensOf dev).length % 2 = 0) := by
  rw [parseDevice] at h
  split at h
  · cases h
  · cases hloop : parseLoopAux passive dev.length dev ⟨[], 0, 0, 0⟩ with
    | error e =>
      rw [hloop] at h
      cases h
    | ok st1 =>
      rw [hloop] at h
      have h3 : (if st1.insts = [] ∨ (¬passive ∧ st1.num_intfs ≠ 0) then
          Except.error InitErr.invalidSpec else Except.ok st1) = Except.ok st := h
      by_cases hpost : st1.insts = [] ∨ (¬passive ∧ st1.num_intfs ≠ 0)
      · rw [if_pos hpost] at h3
        cases h3
      · rw [if_neg hpost] at h3
        injection h3 with h2
        subst h2
        obtain ⟨hmem, hcnt, hnil, hcap, hpar⟩ :=
          parseLoopAux_counts passive dev.length dev ⟨[], 0, 0, 0⟩ st1 hloop
            (fun _ => by simp)
        have htne : tokensOf dev ≠ [] := by
          intro hte
          have hst1 : st1 = ⟨[], 0, 0, 0⟩ := hnil hte
          exact hpost (Or.inl (by rw [hst1]))
        have hcnt2 : st1.intf_count = (tokensOf dev).length := by simpa using hcnt
        refine ⟨hmem, hcnt2, hcnt2 ▸ hcap htne, ?_⟩
        intro hp
        subst hp
        obtain ⟨hp1, hp2⟩ := hpar rfl
        have hz : st1.num_intfs = 0 := by
          by_contra hnz
          exact hpost (Or.inr ⟨by simp, hnz⟩)
        rw [hz] at hp1
        simpa using hp1.symm

theorem parseDevice_pairing (dev : List Nat) (st : PState)
    (h : parseDevice false dev = .ok st)
    (hnd : (tokensOf dev).Nodup) :
    pairedB st.insts = true ∧
    ∀ i ∈ st.insts, ∀ j ∈ st.insts, (i.peer = some j.idx ↔ j.peer = some i.idx) := by
  rw [parseDevice] at h
  split at h
  · cases h
  · cases hloop : parseLoopAux false dev.length dev ⟨[], 0, 0, 0⟩ with
    | error e =>
      rw [hloop] at h
      cases h
    | ok st1 =>
      rw [hloop] at h
      have h3 : (if st1.insts = [] ∨ (¬(false : Bool) ∧ st1.num_intfs ≠ 0) then
          Except.error InitErr.invalidSpec else Except.ok st1) = Except.ok st := h
      by_cases hpost : st1.insts = [] ∨ (¬(false : Bool) ∧ st1.num_intfs ≠ 0)
      · rw [if_pos hpost] at h3
        cases h3
      · rw [if_neg hpost] at h3
        injection h3 with h2
        subst h2
        have hinv0 : PairInv (⟨[], 0, 0, 0⟩ : PState) := by
          refine ⟨?_, by simp, by simp, by simp⟩
          show pairedB [] = true
          rfl
        have hinv := parseLoopAux_pair dev.length dev ⟨[], 0, 0, 0⟩ st1 hloop hinv0
          (by simpa using hnd)
        have hz : st1.num_intfs = 0 := by
          by_contra hnz
          exact hpost (Or.inr ⟨by simp, hnz⟩)
        have hpaired : pairedB st1.insts = true := by
          have hp := hinv.1
          rw [hz] at hp
          exact hp
        exact ⟨hpaired, pairedB_symm st1.insts hpaired hinv.2.1⟩

/-- The device string "eth0::eth1". -/
def c6skipDev : List Nat := [101, 116, 104, 48, 58, 58, 101, 116, 104, 49]

/-- In inline mode the interior empty token of "eth0::eth1" is skipped and
the two interfaces are bridged, with the default 32 MiB per-ring budget. -/
def c6skipCtx : AFPContext :=
  ⟨[⟨[101, 116, 104, 49], 1, some 0⟩, ⟨[101, 116, 104, 48], 0, some 1⟩], 2, 33554432⟩

/-- C6 (amended): initialize rejects an empty head token, an empty tail
token, and (in passive mode) an empty interior token with an
invalid-specification error; it rejects any device string containing a
token whose length reaches IFNAMSIZ, one whose non-empty token count
reaches 32, and (non-passive) one with an odd number of non-empty tokens
(dangling unpaired interface).  In non-passive modes empty interior tokens
are skipped, and — provided the non-empty tokens are pairwise distinct —
each second non-empty token is paired with the preceding one into a bridge
with symmetric peer links. -/
theorem C6_device_string_rules :
    (∀ passive dev bufOpt envOpt, dev.head? = some colonByte →
      afpacket_daq_init passive dev bufOpt envOpt = .error .invalidSpec) ∧
    (∀ passive dev bufOpt envOpt, dev.getLast? = some colonByte →
      afpacket_daq_init passive dev bufOpt envOpt = .error .invalidSpec) ∧
    (∀ dev bufOpt envOpt, hasDoubleColon dev = true →
      afpacket_daq_init true dev bufOpt envOpt = .error .invalidSpec) ∧
    (∀ passive dev bufOpt envOpt, (∃ t ∈ tokensOf dev, IFNAMSIZ ≤ t.length) →
      ∃ err, afpacket_daq_init passive dev bufOpt envOpt = .error err) ∧
    (∀ passive dev bufOpt envOpt, AF_PACKET_MAX_INTERFACES ≤ (tokensOf dev).length →
      ∃ err, afpacket_daq_init passive dev bufOpt envOpt = .error err) ∧
    (∀ dev bufOpt envOpt, (tokensOf dev).length % 2 = 1 →
      ∃ err, afpacket_daq_init false dev bufOpt envOpt = .error err) ∧
    afpacket_daq_init false c6skipDev none none = .ok c6skipCtx ∧
    (∀ dev bufOpt envOpt ctx, (tokensOf dev).Nodup →
      afpacket_daq_init false dev bufOpt envOpt = .ok ctx →
      pairedB ctx.insts = true ∧
      ∀ i ∈ ctx.insts, ∀ j ∈ ctx.insts, (i.peer = some j.idx ↔ j.peer = some i.idx)) := by
  have hok_parse : ∀ passive dev bufOpt envOpt ctx,
      afpacket_daq_init passive dev bufOpt envOpt = .ok ctx →
      ∃ st, parseDevice passive dev = .ok st ∧ ctx.insts = st.insts ∧
        ctx.intf_count = st.intf_count := by
    intro passive dev bufOpt envOpt ctx h
    rw [afpacket_daq_init] at h
    cases hpd : parseDevice passive dev with
    | error e =>
      rw [hpd] at h
      cases h
    | ok st =>
      rw [hpd] at h
      injection h with h2
      subst h2
      exact ⟨st, rfl, rfl, rfl⟩
  have herr : ∀ passive dev bufOpt envOpt,
      parseDevice passive dev = .error .invalidSpec →
      afpacket_daq_init passive dev bufOpt envOpt = .error .invalidSpec := by
    intro passive dev bufOpt envOpt hpd
    rw [afpacket_daq_init, hpd]
  refine ⟨?_, ?_, ?_, ?_, ?_, ?_, by decide, ?_⟩
  · intro passive dev bufOpt envOpt hh
    refine herr _ _ _ _ ?_
    rw [parseDevice, if_pos (Or.inl hh)]
  · intro passive dev bufOpt envOpt hh
    refine herr _ _ _ _ ?_
    have hlen : dev.length > 0 := by
      cases dev with
      | nil => cases hh
      | cons c cs => simp
    rw [parseDevice, if_pos (Or.inr (Or.inl ⟨hlen, hh⟩))]
  · intro dev bufOpt envOpt hdc
    refine herr _ _ _ _ ?_
    rw [parseDevice, if_pos (Or.inr (Or.inr ⟨rfl, hdc⟩))]
  · intro passive dev bufOpt envOpt ⟨t, ht, hlen⟩
    cases hres : afpacket_daq_init passive dev bufOpt envOpt with
    | error e => exact ⟨e, rfl⟩
    | ok ctx =>
      obtain ⟨st, hpd, _, _⟩ := hok_parse passive dev bufOpt envOpt ctx hres
      obtain ⟨hmem, _, _, _⟩ := parseDevice_ok_props passive dev st hpd
      have := hmem t ht
      omega
  · intro passive dev bufOpt envOpt hge
    cases hres : afpacket_daq_init passive dev bufOpt envOpt with
    | error e => exact ⟨e, rfl⟩
    | ok ctx =>
      obtain ⟨st, hpd, _, _⟩ := hok_parse passive dev bufOpt envOpt ctx hres
      obtain ⟨_, _, hcap, _⟩ := parseDevice_ok_props passive dev st hpd
      omega
  · intro dev bufOpt envOpt hodd
    cases hres : afpacket_daq_init false dev bufOpt envOpt with
    | error e => exact ⟨e, rfl⟩
    | ok ctx =>
      obtain ⟨st, hpd, _, _⟩ := hok_parse false dev bufOpt envOpt ctx hres
      obtain ⟨_, _, _, hpar⟩ := parseDevice_ok_props false dev st hpd
      have := hpar rfl
      omega
  · intro dev bufOpt envOpt ctx hnd hres
    obtain ⟨st, hpd, hinsts, _⟩ := hok_parse false dev bufOpt envOpt ctx hres
    rw [hinsts]
    exact parseDevice_pairing dev st hpd hnd

/-- The device string "eth0:eth1:eth0:eth2" (a duplicated name). -/
def c6dupDev : List Nat :=
  [101, 116, 104, 48, 58, 101, 116, 104, 49, 58,
   101, 116, 104, 48, 58, 101, 116, 104, 50]

/-- What initialize actually builds for it: accepted, but the by-name
lookup in create_bridge mislinks the instances. -/
def c6dupCtx : AFPContext :=
  ⟨[⟨[101, 116, 104, 50], 3, some 0⟩, ⟨[101, 116, 104, 48], 2, none⟩,
    ⟨[101, 116, 104, 49], 1, some 0⟩, ⟨[101, 116, 104, 48], 0, some 3⟩],
   4, 19173961⟩

/-- Counterexample to C6 as frozen: for the inline device string
"eth0:eth1:eth0:eth2" initialize succeeds, yet the peer links are not
symmetric (eth1 points at the first eth0 instance, which points at eth2)
and the second eth0 instance ends up with no peer at all — because
create_bridge resolves peers by name and the duplicated name makes the
last scan hit win. -/
theorem C6_counterexample :
    afpacket_daq_init false c6dupDev none none = .ok c6dupCtx ∧
    (⟨[101, 116, 104, 49], 1, some 0⟩ : InstP) ∈ c6dupCtx.insts ∧
    (⟨[101, 116, 104, 48], 0, some 3⟩ : InstP) ∈ c6dupCtx.insts ∧
    (⟨[101, 116, 104, 49], 1, some 0⟩ : InstP).peer =
      some (⟨[101, 116, 104, 48], 0, some 3⟩ : InstP).idx ∧
    (⟨[101, 116, 104, 48], 0, some 3⟩ : InstP).peer ≠
      some (⟨[101, 116, 104, 49], 1, some 0⟩ : InstP).idx ∧
    (⟨[101, 116, 104, 48], 2, none⟩ : InstP) ∈ c6dupCtx.insts ∧
    (⟨[101, 116, 104, 48], 2, none⟩ : InstP).peer = none := by
  decide

/-- Witness for C6: the empty-head device string ":e" is rejected. -/
theorem C6_witness :
    afpacket_daq_init true [58, 101] none none = .error .invalidSpec :=
  C6_device_string_rules.1 true [58, 101] none none rfl
